import Mathlib

/-!
# Telemetry/control channel of the teleoperation dashboard

A shallow embedding of `frontend-web/src/hooks/useWebSocket.js`: the React
hook that owns the WebSocket, its reconnect timer and the reconnect counter.

The hook's refs and state variables are the fields of `Hook`.  The browser
objects the hook talks to are part of the same record: every `WebSocket` the
hook has constructed (`sockets`) and every timer it has created with
`setTimeout` (`timers`, `pending`).  Each callback of the source is a function
`Hook → Hook`; a `try`/`catch` is written out as a match on the outcome of
the guarded block.
-/

namespace MobilIOT

/-! ## JavaScript values -/

/-- JavaScript values that travel through the channel: JSON trees and
`undefined`.  A number is an integer (the safe-integer range of a double); an
object is the list of its own properties in enumeration order. -/
inductive JsVal where
  | undefined
  | null
  | bool (b : Bool)
  | num (n : Int)
  | str (s : String)
  | arr (xs : List JsVal)
  | obj (fields : List (String × JsVal))

/-- Own properties of an object, in the order `OwnPropertyKeys` lists them. -/
abbrev JsObj := List (String × JsVal)

/-- The value of `k` when `k` is an array index (a canonical decimal numeral
below `2^32 - 1`): such keys are enumerated first, in ascending order. -/
def arrayIndex? (k : String) : Option Nat :=
  let cs := k.data
  if cs.isEmpty || !cs.all Char.isDigit then none
  else
    let n := cs.foldl (fun acc c => 10 * acc + (c.toNat - 48)) 0
    if (Nat.toDigits 10 n == cs) && decide (n < 2 ^ 32 - 1) then some n else none

/-- Placement of a new array-index key among the array-index keys that open
the property list. -/
def insertIndexed (n : Nat) (k : String) (v : JsVal) : JsObj → JsObj
  | [] => [(k, v)]
  | p :: rest =>
    match arrayIndex? p.1 with
    | some m => if m < n then p :: insertIndexed n k v rest else (k, v) :: p :: rest
    | none => (k, v) :: p :: rest

/-- Definition of a data property `o[k] = v`: an existing key keeps its place
and takes the new value, a new key is added in enumeration order. -/
def JsObj.set (o : JsObj) (k : String) (v : JsVal) : JsObj :=
  if o.any (fun p => p.1 == k) then
    o.map (fun p => if p.1 == k then (k, v) else p)
  else
    match arrayIndex? k with
    | some n => insertIndexed n k v o
    | none => o ++ [(k, v)]

/-- Object spread `{ ...target, ...src }` onto an object under construction:
every own property of `src` is copied in order. -/
def JsObj.spread (target src : JsObj) : JsObj :=
  src.foldl (fun o p => o.set p.1 p.2) target

/-- Property read `v.k`.  Reading a property of `null` or `undefined` throws a
`TypeError` (`none`); a missing property reads `undefined`.  Only named
(non-index, non-`length`) keys are read by the hook, so primitives and arrays
answer `undefined`. -/
def JsVal.getProp (v : JsVal) (k : String) : Option JsVal :=
  match v with
  | .undefined => none
  | .null => none
  | .obj fields => some ((fields.lookup k).getD .undefined)
  | _ => some .undefined

/-- Strict equality `v === s` with a string literal `s`. -/
def JsVal.strictEqStr (v : JsVal) (s : String) : Bool :=
  match v with
  | .str t => t == s
  | _ => false

/-- Lower-case hexadecimal digit. -/
def hexDigit (n : Nat) : Char :=
  if n < 10 then Char.ofNat (48 + n) else Char.ofNat (87 + n)

/-- Escape of one character inside a JSON string (`QuoteJSONString`). -/
def quoteChar (c : Char) : List Char :=
  if c = '"' then ['\\', '"']
  else if c = '\\' then ['\\', '\\']
  else if c.toNat = 8 then ['\\', 'b']
  else if c.toNat = 12 then ['\\', 'f']
  else if c.toNat = 10 then ['\\', 'n']
  else if c.toNat = 13 then ['\\', 'r']
  else if c.toNat = 9 then ['\\', 't']
  else if c.toNat < 32 then ['\\', 'u', '0', '0', hexDigit (c.toNat / 16), hexDigit (c.toNat % 16)]
  else [c]

/-- JSON string literal for `s`. -/
def quoteJSON (s : String) : String :=
  String.mk ('"' :: (s.data.flatMap quoteChar) ++ ['"'])

/-- Decimal numeral of an integer, as `JSON.stringify` prints it. -/
def numeral (n : Int) : String :=
  match n with
  | .ofNat m => String.mk (Nat.toDigits 10 m)
  | .negSucc m => String.mk ('-' :: Nat.toDigits 10 (m + 1))

/-- Comma-joined items between two brackets. -/
def bracket (l r : Char) (items : List String) : String :=
  String.mk (l :: (String.intercalate "," items).data ++ [r])

mutual
/-- Serialisation `JSON.stringify(v)` with no replacer and no indentation;
`none` is the result `undefined`. -/
def JSONstringify : JsVal → Option String
  | .undefined => none
  | .null => some "null"
  | .bool true => some "true"
  | .bool false => some "false"
  | .num n => some (numeral n)
  | .str s => some (quoteJSON s)
  | .arr xs => some (bracket '[' ']' (stringifyElems xs))
  | .obj fields => some (bracket (Char.ofNat 123) (Char.ofNat 125) (stringifyProps fields))
/-- Elements of an array: `undefined` prints as `null`. -/
def stringifyElems : List JsVal → List String
  | [] => []
  | x :: xs => (JSONstringify x).getD "null" :: stringifyElems xs
/-- Properties of an object: a property whose value is `undefined` is left out. -/
def stringifyProps : List (String × JsVal) → List String
  | [] => []
  | (k, v) :: rest =>
    match JSONstringify v with
    | some s => (quoteJSON k ++ ":" ++ s) :: stringifyProps rest
    | none => stringifyProps rest
end

/-! ## Browser objects -/

/-- Constants `WebSocket.CONNECTING` (0), `OPEN` (1), `CLOSING` (2), `CLOSED` (3). -/
inductive ReadyState where
  | CONNECTING
  | OPEN
  | CLOSING
  | CLOSED
  deriving DecidableEq

/-- One `WebSocket` object.  A callback slot holds either `null` (`false`) or
the closure `connectWebSocket` assigns to it (`true`); `sent` lists the frames
handed to `send`, oldest first. -/
structure Socket where
  readyState : ReadyState
  onopen : Bool
  onmessage : Bool
  onerror : Bool
  onclose : Bool
  sent : List String

/-- Result of `new WebSocket(url)` with the four callbacks of the hook assigned. -/
def Socket.fresh : Socket :=
  { readyState := .CONNECTING, onopen := true, onmessage := true, onerror := true,
    onclose := true, sent := [] }

/-- Effect of `s.onopen = null; s.onmessage = null; s.onerror = null; s.onclose = null`. -/
def Socket.detach (s : Socket) : Socket :=
  { s with onopen := false, onmessage := false, onerror := false, onclose := false }

/-- Effect of `s.close(..)`: a socket that is connecting or open starts its closing
handshake, a closing or closed one is left alone. -/
def Socket.close (s : Socket) : Socket :=
  match s.readyState with
  | .CONNECTING => { s with readyState := .CLOSING }
  | .OPEN => { s with readyState := .CLOSING }
  | _ => s

/-- Whether any of the four callback slots is assigned. -/
def Socket.attached (s : Socket) : Bool :=
  s.onopen || s.onmessage || s.onerror || s.onclose

/-! ## The hook -/

/-- State of one `useWebSocket()` instance and of the browser objects it made.

* `telemetry`, `isConnected`: the two `useState` cells;
* `ws`: `ws.current`, the index in `sockets` of the referenced socket, `none` for `null`;
* `reconnectTimeout`: `reconnectTimeout.current`, a timer id, `none` for `null`;
* `reconnectAttempts`, `isIntentionallyClosed`: the two remaining refs;
* `sockets`: every `WebSocket` constructed so far, in creation order;
* `timers`: the delay of every timer created so far; the timer with id `i + 1`
  (ids are positive) has delay `timers[i]`;
* `pending`: ids of the timers that have neither fired nor been cleared. -/
@[ext]
structure Hook where
  telemetry : JsVal
  isConnected : Bool
  ws : Option Nat
  reconnectTimeout : Option Nat
  reconnectAttempts : Nat
  isIntentionallyClosed : Bool
  sockets : List Socket
  timers : List Nat
  pending : List Nat

/-- The constant `maxReconnectAttempts`. -/
def maxReconnectAttempts : Nat := 5

/-- State of the hook before its effect has run. -/
def Hook.initial : Hook :=
  { telemetry := .null, isConnected := false, ws := none, reconnectTimeout := none,
    reconnectAttempts := 0, isIntentionallyClosed := false, sockets := [], timers := [],
    pending := [] }

/-- Value of `ws.current?.readyState`; `none` is `undefined`. -/
def Hook.readyState? (h : Hook) : Option ReadyState :=
  match h.ws with
  | some i => (h.sockets[i]?).map Socket.readyState
  | none => none

/-- Update of the socket object with index `i`. -/
def Hook.updateSocket (h : Hook) (i : Nat) (f : Socket → Socket) : Hook :=
  match h.sockets[i]? with
  | some s => { h with sockets := h.sockets.set i (f s) }
  | none => h

/-- Block `if (ws.current) { ...four callbacks set to null...; ws.current.close(..) }`
of lines 31-37 and 110-116. -/
def Hook.discardSocket (h : Hook) : Hook :=
  match h.ws with
  | some i => h.updateSocket i (fun s => s.detach.close)
  | none => h

/-- Truthiness of `reconnectTimeout.current`: `null` and `0` are falsy. -/
def truthyId : Option Nat → Bool
  | some (_ + 1) => true
  | _ => false

/-- Effect of `clearTimeout(reconnectTimeout.current)` under `if (reconnectTimeout.current)`:
the ref keeps its value, the timer it names stops being pending. -/
def Hook.clearReconnectTimeout (h : Hook) : Hook :=
  if truthyId h.reconnectTimeout then
    { h with pending := h.pending.filter (fun id => some id != h.reconnectTimeout) }
  else h

/-- Effect of `reconnectTimeout.current = setTimeout(() => connectWebSocket(), delay)`. -/
def Hook.scheduleReconnect (h : Hook) (delay : Nat) : Hook :=
  { h with timers := h.timers ++ [delay],
           pending := h.pending ++ [h.timers.length + 1],
           reconnectTimeout := some (h.timers.length + 1) }

/-- Delay computed at line 78: `Math.min(3000 * Math.pow(2, attempts - 1), 48000)`. -/
def backoffDelay (attempts : Nat) : Nat :=
  min (3000 * 2 ^ (attempts - 1)) 48000

/-- Callback `ws.current.onopen`. -/
def onopen (h : Hook) : Hook :=
  { h with isConnected := true, reconnectAttempts := 0, isIntentionallyClosed := false }

/-- Guarded block of `ws.current.onmessage`: `none` when `JSON.parse` or the
property read throws. -/
def onmessageTry (JSONparse : String → Option JsVal) (text : String) (h : Hook) : Option Hook :=
  match JSONparse text with
  | none => none
  | some data =>
    match data.getProp "type" with
    | none => none
    | some t =>
      if t.strictEqStr "telemetry" then
        match data.getProp "data" with
        | none => none
        | some d => some { h with telemetry := d }
      else some h

/-- Callback `ws.current.onmessage`; the `catch` only logs.  `JSONparse` is the
platform's `JSON.parse`, `none` standing for a thrown `SyntaxError`. -/
def onmessage (JSONparse : String → Option JsVal) (text : String) (h : Hook) : Hook :=
  match onmessageTry JSONparse text h with
  | some h1 => h1
  | none => h

/-- Callback `ws.current.onerror`: it only logs. -/
def onerror (h : Hook) : Hook := h

/-- Callback `ws.current.onclose`. -/
def onclose (h : Hook) : Hook :=
  let h1 := { h with isConnected := false }
  if !h1.isIntentionallyClosed then
    let h2 := h1.clearReconnectTimeout
    let h3 := { h2 with reconnectAttempts := h2.reconnectAttempts + 1 }
    h3.scheduleReconnect (backoffDelay h3.reconnectAttempts)
  else h1

/-- Function `connectWebSocket`.  `ctorThrows` tells whether `new WebSocket(..)`
throws in this call. -/
def connectWebSocket (ctorThrows : Bool) (h : Hook) : Hook :=
  if h.readyState? = some .CONNECTING ∨ h.readyState? = some .OPEN then h
  else if h.reconnectAttempts ≥ maxReconnectAttempts then h
  else
    let h1 := h.discardSocket
    if ctorThrows then
      let h2 := { h1 with reconnectAttempts := h1.reconnectAttempts + 1 }
      h2.scheduleReconnect 5000
    else
      { h1 with sockets := h1.sockets ++ [Socket.fresh], ws := some h1.sockets.length }

/-- Body of the effect: it runs `connectWebSocket` once. -/
def mount (ctorThrows : Bool) (h : Hook) : Hook :=
  connectWebSocket ctorThrows h

/-- Function returned by the effect, run when the component unmounts. -/
def cleanup (h : Hook) : Hook :=
  let h1 := { h with isIntentionallyClosed := true }
  let h2 := h1.clearReconnectTimeout
  h2.discardSocket

/-- The envelope `{ type: "control", payload: { command, ...data } }`. -/
def controlEnvelope (command : JsVal) (data : JsObj) : JsVal :=
  .obj [("type", .str "control"),
        ("payload", .obj (JsObj.spread [("command", command)] data))]

/-- Argument of `ws.current.send` in `sendControl`; `send` turns `undefined`
into its name. -/
def controlFrame (command : JsVal) (data : JsObj) : String :=
  (JSONstringify (controlEnvelope command data)).getD "undefined"

/-- Function `sendControl`; `data` is an object, as at its call sites.  On the
values of `JsVal` neither `JSON.stringify`
nor `send` on an open socket throws, so the guarded block of lines 122-127
always completes and the `catch` of lines 128-130 has no case here; the `else`
branch only warns. -/
def sendControl (command : JsVal) (data : JsObj) (h : Hook) : Hook :=
  match h.ws with
  | some i =>
    if h.readyState? = some .OPEN then
      h.updateSocket i (fun s => { s with sent := s.sent ++ [controlFrame command data] })
    else h
  | none => h

/-! ## Events -/

/-- Events a `WebSocket` dispatches. -/
inductive SocketEvent where
  | opened
  | message (text : String)
  | errored
  | closed

/-- Dispatch of an event by socket `i`: the browser updates the ready state,
then calls the callback if the slot holds one. -/
def deliver (JSONparse : String → Option JsVal) (i : Nat) (ev : SocketEvent) (h : Hook) : Hook :=
  match h.sockets[i]? with
  | none => h
  | some s =>
    match ev with
    | .opened =>
      let h1 := h.updateSocket i (fun s => { s with readyState := .OPEN })
      if s.onopen then onopen h1 else h1
    | .message text => if s.onmessage then onmessage JSONparse text h else h
    | .errored => if s.onerror then onerror h else h
    | .closed =>
      let h1 := h.updateSocket i (fun s => { s with readyState := .CLOSED })
      if s.onclose then onclose h1 else h1

/-- Expiry of timer `id`: a pending timer stops being pending and its callback
`() => connectWebSocket()` runs; a fired or cleared timer does nothing. -/
def fireTimer (ctorThrows : Bool) (id : Nat) (h : Hook) : Hook :=
  if id ∈ h.pending then
    connectWebSocket ctorThrows { h with pending := h.pending.filter (fun j => j != id) }
  else h

/-- What can happen to a mounted hook. -/
inductive Action where
  | fire (id : Nat) (ctorThrows : Bool)
  | event (sock : Nat) (ev : SocketEvent)
  | send (command : JsVal) (data : JsObj)
  | unmount

/-- One action. -/
def step (JSONparse : String → Option JsVal) (a : Action) (h : Hook) : Hook :=
  match a with
  | .fire id ctorThrows => fireTimer ctorThrows id h
  | .event sock ev => deliver JSONparse sock ev h
  | .send command data => sendControl command data h
  | .unmount => cleanup h

/-- Actions in sequence, the head first. -/
def run (JSONparse : String → Option JsVal) (acts : List Action) (h : Hook) : Hook :=
  acts.foldl (fun s a => step JSONparse a s) h

/-- States of a hook that was mounted and has since seen any actions. -/
def Reachable (JSONparse : String → Option JsVal) (h : Hook) : Prop :=
  ∃ (c : Bool) (acts : List Action), h = run JSONparse acts (mount c Hook.initial)

/-- Five unintended closures in a row, every retry timer but the last having
fired: socket `k` closes, then timer `k + 1` expires and `connectWebSocket`
constructs socket `k + 1`. -/
def fiveClosures : List Action :=
  [.event 0 .closed, .fire 1 false, .event 1 .closed, .fire 2 false, .event 2 .closed,
   .fire 3 false, .event 3 .closed, .fire 4 false, .event 4 .closed]

/-- Three unintended closures, a fourth socket that opens, and its closure. -/
def threeClosuresThenOpen : List Action :=
  [.event 0 .closed, .fire 1 false, .event 1 .closed, .fire 2 false, .event 2 .closed,
   .fire 3 false, .event 3 .opened, .event 3 .closed]

/-- Actions other than the open and close events of a socket: timer expiries,
message and error events, sends and the unmount. -/
def Action.quiet : Action → Bool
  | .event _ .opened => false
  | .event _ .closed => false
  | _ => true

/-- A telemetry frame `{ "type": "telemetry", "data": d }` after parsing. -/
def telemetryFrame (d : JsVal) : JsVal :=
  .obj [("type", .str "telemetry"), ("data", d)]

/-- Ownership of the browser objects: every pending timer is the one
`reconnectTimeout.current` names (a truthy id), and a socket with a callback
assigned is the one `ws.current` references. -/
def Owned (h : Hook) : Prop :=
  (∀ id ∈ h.pending, h.reconnectTimeout = some id ∧ id ≠ 0) ∧
  (∀ (i : Nat) (s : Socket), h.sockets[i]? = some s → s.attached = true → h.ws = some i)

/-- No timer is pending and no socket has a callback assigned. -/
def Silent (h : Hook) : Prop :=
  h.pending = [] ∧ ∀ s ∈ h.sockets, s.attached = false

/-- Four unintended closures in a row, each retry timer having fired: the
fifth socket is connecting and the counter is 4. -/
def fourClosures : List Action :=
  [.event 0 .closed, .fire 1 false, .event 1 .closed, .fire 2 false, .event 2 .closed,
   .fire 3 false, .event 3 .closed, .fire 4 false]

/-- Transport discipline: a socket dispatches nothing once it has dispatched its
close event, that is once its ready state is `CLOSED`; timer expiries, sends
and the unmount are always possible. -/
def Action.permitted (h : Hook) : Action → Bool
  | .event sock _ =>
    match h.sockets[sock]? with
    | some s => s.readyState != .CLOSED
    | none => false
  | _ => true

/-- States of a mounted hook whose sockets keep the transport discipline. -/
inductive ReachableOrderly (JSONparse : String → Option JsVal) : Hook → Prop where
  | mounted (c : Bool) : ReachableOrderly JSONparse (mount c Hook.initial)
  | after (a : Action) (h : Hook) : ReachableOrderly JSONparse h → a.permitted h = true →
      ReachableOrderly JSONparse (step JSONparse a h)

/-- The socket `ws.current` references is the one constructed last, and it is
`null` only while no socket has been constructed. -/
def Latest (h : Hook) : Prop :=
  match h.ws with
  | none => h.sockets.length = 0
  | some i => i + 1 = h.sockets.length

/-- The counter is at most `maxReconnectAttempts`, and once it is there every
socket that still has a callback assigned has dispatched its close event. -/
def Capped (h : Hook) : Prop :=
  h.reconnectAttempts ≤ maxReconnectAttempts ∧
  (h.reconnectAttempts = maxReconnectAttempts →
    ∀ (j : Nat) (s : Socket), h.sockets[j]? = some s → s.attached = true →
      s.readyState = .CLOSED)

/-! ## The mobile hook

A shallow embedding of `frontendMobile/src/hooks/useWebSocket.js`.  It has no
reconnect counter and no intentional-close flag, and it never sets a callback
slot back to `null`. -/

namespace Mobile

/-- State of one mobile `useWebSocket()` instance and of the browser objects it
made; the fields are those of the web hook that the mobile source has. -/
@[ext]
structure Hook where
  telemetry : JsVal
  isConnected : Bool
  ws : Option Nat
  reconnectTimeout : Option Nat
  sockets : List Socket
  timers : List Nat
  pending : List Nat

/-- State of the mobile hook before its effect has run. -/
def Hook.initial : Hook :=
  { telemetry := .null, isConnected := false, ws := none, reconnectTimeout := none,
    sockets := [], timers := [], pending := [] }

/-- Update of the socket object with index `i`. -/
def Hook.updateSocket (h : Hook) (i : Nat) (f : Socket → Socket) : Hook :=
  match h.sockets[i]? with
  | some s => { h with sockets := h.sockets.set i (f s) }
  | none => h

/-- Value of `ws.current?.readyState`; `none` is `undefined`. -/
def Hook.readyState? (h : Hook) : Option ReadyState :=
  match h.ws with
  | some i => (h.sockets[i]?).map Socket.readyState
  | none => none

/-- Callback `ws.current.onopen` of the mobile hook. -/
def onopen (h : Hook) : Hook :=
  { h with isConnected := true }

/-- Guarded block of the mobile `ws.current.onmessage`. -/
def onmessageTry (JSONparse : String → Option JsVal) (text : String) (h : Hook) : Option Hook :=
  match JSONparse text with
  | none => none
  | some data =>
    match data.getProp "type" with
    | none => none
    | some t =>
      if t.strictEqStr "telemetry" then
        match data.getProp "data" with
        | none => none
        | some d => some { h with telemetry := d }
      else some h

/-- Callback `ws.current.onmessage` of the mobile hook; the `catch` only logs. -/
def onmessage (JSONparse : String → Option JsVal) (text : String) (h : Hook) : Hook :=
  match onmessageTry JSONparse text h with
  | some h1 => h1
  | none => h

/-- Callback `ws.current.onerror` of the mobile hook: it only logs. -/
def onerror (h : Hook) : Hook := h

/-- Callback `ws.current.onclose` of the mobile hook:
`setIsConnected(false); reconnectTimeout.current = setTimeout(.., 3000)`. -/
def onclose (h : Hook) : Hook :=
  { h with isConnected := false,
           timers := h.timers ++ [3000],
           pending := h.pending ++ [h.timers.length + 1],
           reconnectTimeout := some (h.timers.length + 1) }

/-- Function `connectWebSocket` of the mobile hook.  When `new WebSocket(..)`
throws, the `catch` only logs and `ws.current` keeps its value. -/
def connectWebSocket (ctorThrows : Bool) (h : Hook) : Hook :=
  if ctorThrows then h
  else { h with sockets := h.sockets ++ [Socket.fresh], ws := some h.sockets.length }

/-- Body of the mobile effect. -/
def mount (ctorThrows : Bool) (h : Hook) : Hook :=
  connectWebSocket ctorThrows h

/-- Function returned by the mobile effect: it closes the socket, leaving its
callbacks in place, then clears the timer `reconnectTimeout.current` names. -/
def cleanup (h : Hook) : Hook :=
  let h1 :=
    match h.ws with
    | some i => h.updateSocket i Socket.close
    | none => h
  if truthyId h1.reconnectTimeout then
    { h1 with pending := h1.pending.filter (fun id => some id != h1.reconnectTimeout) }
  else h1

/-- Function `sendControl` of the mobile hook. -/
def sendControl (command : JsVal) (data : JsObj) (h : Hook) : Hook :=
  match h.ws with
  | some i =>
    if h.readyState? = some .OPEN then
      h.updateSocket i (fun s => { s with sent := s.sent ++ [controlFrame command data] })
    else h
  | none => h

/-- Dispatch of an event by socket `i` of the mobile hook. -/
def deliver (JSONparse : String → Option JsVal) (i : Nat) (ev : SocketEvent) (h : Hook) : Hook :=
  match h.sockets[i]? with
  | none => h
  | some s =>
    match ev with
    | .opened =>
      let h1 := h.updateSocket i (fun s => { s with readyState := .OPEN })
      if s.onopen then onopen h1 else h1
    | .message text => if s.onmessage then onmessage JSONparse text h else h
    | .errored => if s.onerror then onerror h else h
    | .closed =>
      let h1 := h.updateSocket i (fun s => { s with readyState := .CLOSED })
      if s.onclose then onclose h1 else h1

/-- Expiry of timer `id` of the mobile hook. -/
def fireTimer (ctorThrows : Bool) (id : Nat) (h : Hook) : Hook :=
  if id ∈ h.pending then
    connectWebSocket ctorThrows { h with pending := h.pending.filter (fun j => j != id) }
  else h

/-- Closure number `k + 1` and the retry it causes: socket `k` dispatches its
close event, then timer `k + 1` expires and the constructor succeeds. -/
def closureRound (JSONparse : String → Option JsVal) (k : Nat) (h : Hook) : Hook :=
  fireTimer false (k + 1) (deliver JSONparse k .closed h)

/-- The first `n` closures in a row after a mount, each followed by its retry. -/
def closures (JSONparse : String → Option JsVal) : Nat → Hook
  | 0 => mount false Hook.initial
  | n + 1 => closureRound JSONparse n (closures JSONparse n)

end Mobile

/-- Transport discipline of a well-behaved `WebSocket`: the open event is
dispatched only by a socket that is connecting, and the close event only by a
socket that has not dispatched it before (its ready state is not `CLOSED`). -/
def Action.regular (h : Hook) : Action → Bool
  | .event sock .opened =>
    match h.sockets[sock]? with
    | some s => s.readyState == .CONNECTING
    | none => false
  | .event sock .closed =>
    match h.sockets[sock]? with
    | some s => s.readyState != .CLOSED
    | none => false
  | _ => true

/-- States of a mounted hook whose sockets dispatch open and close events as
`Action.regular` allows; timer expiries, construction failures, message and
error events, sends and the unmount are unrestricted. -/
inductive ReachableRegular (JSONparse : String → Option JsVal) : Hook → Prop where
  | mounted (c : Bool) : ReachableRegular JSONparse (mount c Hook.initial)
  | after (a : Action) (h : Hook) : ReachableRegular JSONparse h → a.regular h = true →
      ReachableRegular JSONparse (step JSONparse a h)

/-- The referenced socket is connecting or open. -/
def Hook.live (h : Hook) : Prop :=
  h.readyState? = some .CONNECTING ∨ h.readyState? = some .OPEN

/-- A socket has either all four callbacks assigned or none. -/
def Socket.whole (s : Socket) : Prop :=
  s.attached = true →
    s.onopen = true ∧ s.onmessage = true ∧ s.onerror = true ∧ s.onclose = true

/-- Every socket is whole. -/
def Whole (h : Hook) : Prop :=
  ∀ (j : Nat) (s : Socket), h.sockets[j]? = some s → s.whole

/-- A pending timer and a live referenced socket do not coexist. -/
def NoOverlap (h : Hook) : Prop :=
  h.pending ≠ [] → ¬ h.live

/-- What the connected indicator being true implies: the counter is 0, no
timer is pending and `ws.current` references a socket; that socket has its
four callbacks as long as the intentional-close flag is false. -/
def Settled (h : Hook) : Prop :=
  h.isConnected = true →
    h.reconnectAttempts = 0 ∧ h.pending = [] ∧
    ∃ (i : Nat) (s : Socket), h.ws = some i ∧ h.sockets[i]? = some s ∧
      (h.isIntentionallyClosed = false →
        s.onopen = true ∧ s.onmessage = true ∧ s.onerror = true ∧ s.onclose = true)

/-- Once the intentional-close flag is true, no timer is pending and no socket
has a callback. -/
def TornSilent (h : Hook) : Prop :=
  h.isIntentionallyClosed = true → Silent h

/-- A hook that was mounted, whose socket opened, and that was then unmounted. -/
def tornDownConnected : Hook :=
  step (fun _ => none) .unmount
    (step (fun _ => none) (.event 0 .opened) (mount false Hook.initial))

namespace Mobile

/-- What can happen to a mobile hook besides the expiry of a timer and the
cleanup: a socket dispatches an event, or the screen sends a control. -/
inductive Action where
  | event (sock : Nat) (ev : SocketEvent)
  | send (command : JsVal) (data : JsObj)

/-- One action of the mobile hook. -/
def step (JSONparse : String → Option JsVal) (a : Action) (h : Hook) : Hook :=
  match a with
  | .event sock ev => deliver JSONparse sock ev h
  | .send command data => sendControl command data h

/-- Actions of the mobile hook in sequence, the head first. -/
def run (JSONparse : String → Option JsVal) (acts : List Action) (h : Hook) : Hook :=
  acts.foldl (fun s a => step JSONparse a s) h

/-- A mobile hook that was mounted, whose socket opened, and that was then
unmounted. -/
def tornDown (JSONparse : String → Option JsVal) : Hook :=
  cleanup (deliver JSONparse 0 .opened (mount false Hook.initial))

end Mobile

/-! ## Field lemmas -/

section fields

variable (h : Hook) (i : Nat) (f : Socket → Socket) (d : Nat)

@[simp] theorem updateSocket_telemetry : (h.updateSocket i f).telemetry = h.telemetry := by
  unfold Hook.updateSocket; split <;> rfl

@[simp] theorem updateSocket_isConnected : (h.updateSocket i f).isConnected = h.isConnected := by
  unfold Hook.updateSocket; split <;> rfl

@[simp] theorem updateSocket_ws : (h.updateSocket i f).ws = h.ws := by
  unfold Hook.updateSocket; split <;> rfl

@[simp] theorem updateSocket_reconnectTimeout :
    (h.updateSocket i f).reconnectTimeout = h.reconnectTimeout := by
  unfold Hook.updateSocket; split <;> rfl

@[simp] theorem updateSocket_reconnectAttempts :
    (h.updateSocket i f).reconnectAttempts = h.reconnectAttempts := by
  unfold Hook.updateSocket; split <;> rfl

@[simp] theorem updateSocket_isIntentionallyClosed :
    (h.updateSocket i f).isIntentionallyClosed = h.isIntentionallyClosed := by
  unfold Hook.updateSocket; split <;> rfl

@[simp] theorem updateSocket_timers : (h.updateSocket i f).timers = h.timers := by
  unfold Hook.updateSocket; split <;> rfl

@[simp] theorem updateSocket_pending : (h.updateSocket i f).pending = h.pending := by
  unfold Hook.updateSocket; split <;> rfl

@[simp] theorem updateSocket_length :
    (h.updateSocket i f).sockets.length = h.sockets.length := by
  unfold Hook.updateSocket; split <;> simp

theorem updateSocket_getElem? (j : Nat) :
    (h.updateSocket i f).sockets[j]? = if i = j then (h.sockets[j]?).map f else h.sockets[j]? := by
  unfold Hook.updateSocket
  split
  · rename_i s hs
    by_cases hij : i = j
    · subst hij; simp [List.getElem?_set', hs]
    · simp [List.getElem?_set', hij]
  · rename_i hs
    by_cases hij : i = j
    · subst hij; simp [hs]
    · simp [hij]

@[simp] theorem discardSocket_telemetry : h.discardSocket.telemetry = h.telemetry := by
  unfold Hook.discardSocket; split <;> simp

@[simp] theorem discardSocket_isConnected : h.discardSocket.isConnected = h.isConnected := by
  unfold Hook.discardSocket; split <;> simp

@[simp] theorem discardSocket_ws : h.discardSocket.ws = h.ws := by
  unfold Hook.discardSocket; split <;> simp

@[simp] theorem discardSocket_reconnectTimeout :
    h.discardSocket.reconnectTimeout = h.reconnectTimeout := by
  unfold Hook.discardSocket; split <;> simp

@[simp] theorem discardSocket_reconnectAttempts :
    h.discardSocket.reconnectAttempts = h.reconnectAttempts := by
  unfold Hook.discardSocket; split <;> simp

@[simp] theorem discardSocket_isIntentionallyClosed :
    h.discardSocket.isIntentionallyClosed = h.isIntentionallyClosed := by
  unfold Hook.discardSocket; split <;> simp

@[simp] theorem discardSocket_timers : h.discardSocket.timers = h.timers := by
  unfold Hook.discardSocket; split <;> simp

@[simp] theorem discardSocket_pending : h.discardSocket.pending = h.pending := by
  unfold Hook.discardSocket; split <;> simp

@[simp] theorem discardSocket_length :
    h.discardSocket.sockets.length = h.sockets.length := by
  unfold Hook.discardSocket; split <;> simp

theorem updateSocket_of_getElem? (s : Socket) (hs : h.sockets[i]? = some s) :
    h.updateSocket i f = { h with sockets := h.sockets.set i (f s) } := by
  unfold Hook.updateSocket; rw [hs]

@[simp] theorem clearReconnectTimeout_telemetry :
    h.clearReconnectTimeout.telemetry = h.telemetry := by
  unfold Hook.clearReconnectTimeout; split <;> rfl

@[simp] theorem clearReconnectTimeout_isConnected :
    h.clearReconnectTimeout.isConnected = h.isConnected := by
  unfold Hook.clearReconnectTimeout; split <;> rfl

@[simp] theorem clearReconnectTimeout_ws : h.clearReconnectTimeout.ws = h.ws := by
  unfold Hook.clearReconnectTimeout; split <;> rfl

@[simp] theorem clearReconnectTimeout_reconnectTimeout :
    h.clearReconnectTimeout.reconnectTimeout = h.reconnectTimeout := by
  unfold Hook.clearReconnectTimeout; split <;> rfl

@[simp] theorem clearReconnectTimeout_reconnectAttempts :
    h.clearReconnectTimeout.reconnectAttempts = h.reconnectAttempts := by
  unfold Hook.clearReconnectTimeout; split <;> rfl

@[simp] theorem clearReconnectTimeout_isIntentionallyClosed :
    h.clearReconnectTimeout.isIntentionallyClosed = h.isIntentionallyClosed := by
  unfold Hook.clearReconnectTimeout; split <;> rfl

@[simp] theorem clearReconnectTimeout_sockets :
    h.clearReconnectTimeout.sockets = h.sockets := by
  unfold Hook.clearReconnectTimeout; split <;> rfl

@[simp] theorem clearReconnectTimeout_timers :
    h.clearReconnectTimeout.timers = h.timers := by
  unfold Hook.clearReconnectTimeout; split <;> rfl

theorem mem_clearReconnectTimeout_pending (id : Nat)
    (hid : id ∈ h.clearReconnectTimeout.pending) : id ∈ h.pending := by
  unfold Hook.clearReconnectTimeout at hid
  split at hid
  · exact (List.mem_filter.mp hid).1
  · exact hid

end fields

/-! ## Backoff arithmetic -/

theorem backoffDelay_succ (c : Nat) : backoffDelay (c + 1) = min (3000 * 2 ^ c) 48000 := by
  simp [backoffDelay]

theorem backoffDelay_le (n : Nat) : backoffDelay n ≤ 48000 := by
  unfold backoffDelay; exact Nat.min_le_right _ _

/-! ## The close callback -/

theorem onclose_unintended (h : Hook) (hflag : h.isIntentionallyClosed = false) :
    onclose h =
      { h with isConnected := false
               reconnectAttempts := h.reconnectAttempts + 1
               timers := h.timers ++ [min (3000 * 2 ^ h.reconnectAttempts) 48000]
               pending := ({ h with isConnected := false } : Hook).clearReconnectTimeout.pending
                            ++ [h.timers.length + 1]
               reconnectTimeout := some (h.timers.length + 1) } := by
  unfold onclose Hook.scheduleReconnect
  simp [hflag, backoffDelay_succ]

theorem onclose_intentional (h : Hook) (hflag : h.isIntentionallyClosed = true) :
    onclose h = { h with isConnected := false } := by
  unfold onclose
  simp [hflag]

theorem deliver_closed (JSONparse : String → Option JsVal) (h : Hook) (i : Nat) (s : Socket)
    (hs : h.sockets[i]? = some s) (hcb : s.onclose = true) :
    deliver JSONparse i .closed h
      = onclose (h.updateSocket i (fun s => { s with readyState := .CLOSED })) := by
  simp [deliver, hs, hcb]

theorem deliver_opened (JSONparse : String → Option JsVal) (h : Hook) (i : Nat) (s : Socket)
    (hs : h.sockets[i]? = some s) (hcb : s.onopen = true) :
    deliver JSONparse i .opened h
      = onopen (h.updateSocket i (fun s => { s with readyState := .OPEN })) := by
  simp [deliver, hs, hcb]

/-! ## Connect requests that are ignored -/

theorem connectWebSocket_live (c : Bool) (h : Hook)
    (hlive : h.readyState? = some .CONNECTING ∨ h.readyState? = some .OPEN) :
    connectWebSocket c h = h := by
  unfold connectWebSocket
  rw [if_pos hlive]

theorem connectWebSocket_ceiling (c : Bool) (h : Hook)
    (hc : maxReconnectAttempts ≤ h.reconnectAttempts) : connectWebSocket c h = h := by
  simp [connectWebSocket, hc]

/-! ## The message callback, the send function and the cleanup -/

theorem onmessage_eq (JSONparse : String → Option JsVal) (text : String) (h : Hook) :
    onmessage JSONparse text h
      = { h with telemetry := (onmessage JSONparse text h).telemetry } := by
  unfold onmessage
  cases hm : onmessageTry JSONparse text h with
  | none => rfl
  | some h1 =>
    unfold onmessageTry at hm
    split at hm
    · cases hm
    · split at hm
      · cases hm
      · split at hm
        · split at hm
          · cases hm
          · cases hm; rfl
        · cases hm; rfl

theorem sendControl_eq (command : JsVal) (data : JsObj) (h : Hook) :
    sendControl command data h
      = { h with sockets := (sendControl command data h).sockets } := by
  unfold sendControl
  repeat' split
  all_goals first | rfl | (apply Hook.ext <;> simp)

theorem sendControl_length (command : JsVal) (data : JsObj) (h : Hook) :
    (sendControl command data h).sockets.length = h.sockets.length := by
  unfold sendControl
  repeat' split
  all_goals simp

theorem cleanup_reconnectAttempts (h : Hook) :
    (cleanup h).reconnectAttempts = h.reconnectAttempts := by
  simp [cleanup]

theorem cleanup_isConnected (h : Hook) : (cleanup h).isConnected = h.isConnected := by
  simp [cleanup]

theorem cleanup_length (h : Hook) : (cleanup h).sockets.length = h.sockets.length := by
  simp [cleanup]

theorem cleanup_timers (h : Hook) : (cleanup h).timers = h.timers := by
  simp [cleanup]

/-- At the ceiling, a quiet action creates no socket and leaves the counter and
the connected indicator alone. -/
theorem step_quiet_ceiling (JSONparse : String → Option JsVal) (a : Action) (h : Hook)
    (hq : a.quiet = true) (hc : maxReconnectAttempts ≤ h.reconnectAttempts) :
    (step JSONparse a h).reconnectAttempts = h.reconnectAttempts ∧
    (step JSONparse a h).sockets.length = h.sockets.length ∧
    (step JSONparse a h).isConnected = h.isConnected := by
  cases a with
  | fire id c =>
    simp only [step, fireTimer]
    split
    · rw [connectWebSocket_ceiling c _ (show maxReconnectAttempts ≤
        ({ h with pending := h.pending.filter (fun j => j != id) } : Hook).reconnectAttempts
        from hc)]
      exact ⟨rfl, rfl, rfl⟩
    · exact ⟨rfl, rfl, rfl⟩
  | event sock ev =>
    cases ev with
    | opened => simp [Action.quiet] at hq
    | closed => simp [Action.quiet] at hq
    | message text =>
      simp only [step, deliver]
      split
      · exact ⟨rfl, rfl, rfl⟩
      · split
        · rw [onmessage_eq]; exact ⟨rfl, rfl, rfl⟩
        · exact ⟨rfl, rfl, rfl⟩
    | errored =>
      simp only [step, deliver, onerror]
      split
      · exact ⟨rfl, rfl, rfl⟩
      · split <;> exact ⟨rfl, rfl, rfl⟩
  | send command data =>
    simp only [step]
    refine ⟨?_, sendControl_length command data h, ?_⟩
    · rw [sendControl_eq]
    · rw [sendControl_eq]
  | unmount =>
    exact ⟨cleanup_reconnectAttempts h, cleanup_length h, cleanup_isConnected h⟩

theorem run_quiet_ceiling (JSONparse : String → Option JsVal) (acts : List Action) :
    ∀ (h : Hook), (∀ a ∈ acts, a.quiet = true) →
      maxReconnectAttempts ≤ h.reconnectAttempts →
      (run JSONparse acts h).reconnectAttempts = h.reconnectAttempts ∧
      (run JSONparse acts h).sockets.length = h.sockets.length ∧
      (run JSONparse acts h).isConnected = h.isConnected := by
  induction acts with
  | nil => intro h _ _; exact ⟨rfl, rfl, rfl⟩
  | cons a rest ih =>
    intro h hq hc
    have ha := step_quiet_ceiling JSONparse a h (hq a (List.mem_cons_self a rest)) hc
    have hrest := ih (step JSONparse a h)
      (fun b hb => hq b (List.mem_cons_of_mem a hb)) (by rw [ha.1]; exact hc)
    show (run JSONparse rest (step JSONparse a h)).reconnectAttempts = _ ∧
      (run JSONparse rest (step JSONparse a h)).sockets.length = _ ∧
      (run JSONparse rest (step JSONparse a h)).isConnected = _
    rw [hrest.1, hrest.2.1, hrest.2.2]
    exact ha

theorem onmessageTry_telemetry (JSONparse : String → Option JsVal) (text : String) (h : Hook)
    (fields : List (String × JsVal)) (hparse : JSONparse text = some (.obj fields))
    (htype : fields.lookup "type" = some (.str "telemetry")) :
    onmessageTry JSONparse text h
      = some { h with telemetry := (fields.lookup "data").getD .undefined } := by
  simp [onmessageTry, hparse, JsVal.getProp, htype, JsVal.strictEqStr]

theorem onmessageTry_other (JSONparse : String → Option JsVal) (text : String) (h : Hook)
    (v : JsVal) (hparse : JSONparse text = some v)
    (hother : ∀ fields, v = .obj fields → fields.lookup "type" ≠ some (.str "telemetry")) :
    onmessageTry JSONparse text h = none ∨ onmessageTry JSONparse text h = some h := by
  cases v with
  | undefined => left; simp [onmessageTry, hparse, JsVal.getProp]
  | null => left; simp [onmessageTry, hparse, JsVal.getProp]
  | bool b => right; simp [onmessageTry, hparse, JsVal.getProp, JsVal.strictEqStr]
  | num n => right; simp [onmessageTry, hparse, JsVal.getProp, JsVal.strictEqStr]
  | str t => right; simp [onmessageTry, hparse, JsVal.getProp, JsVal.strictEqStr]
  | arr xs => right; simp [onmessageTry, hparse, JsVal.getProp, JsVal.strictEqStr]
  | obj fields =>
    right
    have hne := hother fields rfl
    cases hl : fields.lookup "type" with
    | none => simp [onmessageTry, hparse, JsVal.getProp, hl, JsVal.strictEqStr]
    | some t =>
      cases t with
      | str u =>
        have hu : u ≠ "telemetry" := by
          intro hu; apply hne; rw [hl, hu]
        simp [onmessageTry, hparse, JsVal.getProp, hl, JsVal.strictEqStr, hu]
      | _ => simp [onmessageTry, hparse, JsVal.getProp, hl, JsVal.strictEqStr]

/-! ## Ownership of timers and sockets -/

theorem attached_detach_close (s : Socket) : s.detach.close.attached = false := by
  unfold Socket.close Socket.detach
  split <;> rfl

theorem owned_initial : Owned Hook.initial := by
  constructor
  · intro id hid; cases hid
  · intro i s hs; simp [Hook.initial] at hs

theorem owned_updateSocket (h : Hook) (i : Nat) (f : Socket → Socket)
    (hf : ∀ s, (f s).attached = s.attached) (ho : Owned h) : Owned (h.updateSocket i f) := by
  constructor
  · intro id hid
    rw [updateSocket_pending] at hid
    rw [updateSocket_reconnectTimeout]
    exact ho.1 id hid
  · intro j s hs hatt
    rw [updateSocket_ws]
    rw [updateSocket_getElem?] at hs
    split at hs
    · cases hj : h.sockets[j]? with
      | none => rw [hj] at hs; cases hs
      | some s0 =>
        rw [hj] at hs
        cases hs
        exact ho.2 j s0 hj (by rw [← hf s0]; exact hatt)
    · exact ho.2 j s hs hatt

theorem owned_of_fields (h g : Hook) (hp : g.pending = h.pending)
    (ht : g.reconnectTimeout = h.reconnectTimeout) (hs : g.sockets = h.sockets)
    (hw : g.ws = h.ws) (ho : Owned h) : Owned g := by
  unfold Owned
  rw [hp, ht, hs, hw]
  exact ho

theorem owned_clear_pending (h : Hook) (ho : Owned h) :
    h.clearReconnectTimeout.pending = [] := by
  unfold Hook.clearReconnectTimeout
  split
  · apply List.filter_eq_nil_iff.mpr
    intro id hid
    simp [(ho.1 id hid).1]
  · rename_i hfalsy
    apply List.eq_nil_iff_forall_not_mem.mpr
    intro id hid
    apply hfalsy
    obtain ⟨href, hne⟩ := ho.1 id hid
    rw [href]
    cases id with
    | zero => exact absurd rfl hne
    | succ n => rfl

theorem discardSocket_not_attached (h : Hook) (ho : Owned h) :
    ∀ (j : Nat) (s : Socket), h.discardSocket.sockets[j]? = some s → s.attached = false := by
  intro j s hs
  unfold Hook.discardSocket at hs
  split at hs
  · rename_i i hi
    rw [updateSocket_getElem?] at hs
    split at hs
    · cases hj : h.sockets[j]? with
      | none => rw [hj] at hs; cases hs
      | some s0 =>
        rw [hj] at hs
        cases hs
        exact attached_detach_close s0
    · rename_i hij
      cases hatt : s.attached with
      | false => rfl
      | true =>
        have hw := ho.2 j s hs hatt
        rw [hi] at hw
        exact absurd (Option.some.inj hw) hij
  · rename_i hnone
    cases hatt : s.attached with
    | false => rfl
    | true =>
      have hw := ho.2 j s hs hatt
      rw [hnone] at hw
      cases hw

theorem owned_scheduleReconnect (h : Hook) (d : Nat) (hp : h.pending = [])
    (hs : ∀ (j : Nat) (s : Socket), h.sockets[j]? = some s → s.attached = false) :
    Owned (h.scheduleReconnect d) := by
  constructor
  · intro id hid
    simp [Hook.scheduleReconnect, hp] at hid
    subst hid
    exact ⟨rfl, Nat.succ_ne_zero _⟩
  · intro j s hj hatt
    have := hs j s hj
    rw [this] at hatt
    cases hatt

theorem owned_connectWebSocket (c : Bool) (h : Hook) (ho : Owned h) (hp : h.pending = []) :
    Owned (connectWebSocket c h) := by
  unfold connectWebSocket
  split
  · exact ho
  · split
    · exact ho
    · have hna := discardSocket_not_attached h ho
      dsimp only
      split
      · apply owned_scheduleReconnect
        · simpa using hp
        · exact hna
      · constructor
        · intro id hid
          simp [hp] at hid
        · intro j s hj hatt
          simp only at hj
          rw [List.getElem?_append] at hj
          split at hj
          · have := hna j s hj
            rw [this] at hatt
            cases hatt
          · rename_i hlen
            have hj2 : j = h.discardSocket.sockets.length := by
              by_contra hne
              have hlt : h.discardSocket.sockets.length < j := by omega
              have h1 : 1 ≤ j - h.discardSocket.sockets.length := by omega
              have : ([Socket.fresh])[j - h.discardSocket.sockets.length]? = none := by
                apply List.getElem?_eq_none
                simpa using h1
              rw [this] at hj
              cases hj
            simp [hj2]

theorem owned_fireTimer (c : Bool) (id : Nat) (h : Hook) (ho : Owned h) :
    Owned (fireTimer c id h) := by
  unfold fireTimer
  split
  · rename_i hid
    have href := (ho.1 id hid).1
    have hnil : h.pending.filter (fun j => j != id) = [] := by
      apply List.filter_eq_nil_iff.mpr
      intro j hj
      have hj2 := (ho.1 j hj).1
      rw [href] at hj2
      simp [Option.some.inj hj2]
    apply owned_connectWebSocket
    · constructor
      · intro j hj
        simp only [hnil] at hj
        cases hj
      · exact ho.2
    · exact hnil
  · exact ho

theorem owned_onclose (h : Hook) (ho : Owned h) : Owned (onclose h) := by
  cases hflag : h.isIntentionallyClosed with
  | true =>
    rw [onclose_intentional h hflag]
    exact owned_of_fields h _ rfl rfl rfl rfl ho
  | false =>
    rw [onclose_unintended h hflag]
    have hclear : ({ h with isConnected := false } : Hook).clearReconnectTimeout.pending = [] :=
      owned_clear_pending _ (owned_of_fields h _ rfl rfl rfl rfl ho)
    constructor
    · intro id hid
      simp only [hclear, List.nil_append, List.mem_singleton] at hid
      subst hid
      exact ⟨rfl, Nat.succ_ne_zero _⟩
    · exact ho.2

theorem owned_deliver (JSONparse : String → Option JsVal) (i : Nat) (ev : SocketEvent)
    (h : Hook) (ho : Owned h) : Owned (deliver JSONparse i ev h) := by
  unfold deliver
  split
  · exact ho
  · cases ev with
    | opened =>
      have h1 := owned_updateSocket h i (fun s => { s with readyState := .OPEN })
        (fun _ => rfl) ho
      dsimp only
      split
      · exact owned_of_fields _ _ rfl rfl rfl rfl h1
      · exact h1
    | message text =>
      dsimp only
      split
      · rw [onmessage_eq]
        exact owned_of_fields h _ rfl rfl rfl rfl ho
      · exact ho
    | errored =>
      dsimp only
      split
      · exact ho
      · exact ho
    | closed =>
      have h1 := owned_updateSocket h i (fun s => { s with readyState := .CLOSED })
        (fun _ => rfl) ho
      dsimp only
      split
      · exact owned_onclose _ h1
      · exact h1

theorem owned_sendControl (command : JsVal) (data : JsObj) (h : Hook) (ho : Owned h) :
    Owned (sendControl command data h) := by
  unfold sendControl
  split
  · split
    · exact owned_updateSocket h _ _ (fun _ => rfl) ho
    · exact ho
  · exact ho

theorem silent_cleanup (h : Hook) (ho : Owned h) : Silent (cleanup h) := by
  have h1 : Owned ({ h with isIntentionallyClosed := true } : Hook) :=
    owned_of_fields h _ rfl rfl rfl rfl ho
  have hp := owned_clear_pending _ h1
  have h2 : Owned ({ h with isIntentionallyClosed := true } : Hook).clearReconnectTimeout := by
    constructor
    · intro id hid
      rw [hp] at hid
      cases hid
    · intro j s hj hatt
      rw [clearReconnectTimeout_sockets] at hj
      rw [clearReconnectTimeout_ws]
      exact h1.2 j s hj hatt
  constructor
  · show (Hook.discardSocket _).pending = []
    rw [discardSocket_pending]
    exact hp
  · intro s hs
    obtain ⟨j, hj⟩ := List.mem_iff_getElem?.mp hs
    exact discardSocket_not_attached _ h2 j s hj

theorem owned_of_silent (h : Hook) (hs : Silent h) : Owned h := by
  constructor
  · intro id hid
    rw [hs.1] at hid
    cases hid
  · intro j s hj hatt
    have := hs.2 s (List.mem_iff_getElem?.mpr ⟨j, hj⟩)
    rw [this] at hatt
    cases hatt

theorem owned_step (JSONparse : String → Option JsVal) (a : Action) (h : Hook)
    (ho : Owned h) : Owned (step JSONparse a h) := by
  cases a with
  | fire id c => exact owned_fireTimer c id h ho
  | event sock ev => exact owned_deliver JSONparse sock ev h ho
  | send command data => exact owned_sendControl command data h ho
  | unmount => exact owned_of_silent _ (silent_cleanup h ho)

theorem owned_run (JSONparse : String → Option JsVal) (acts : List Action) :
    ∀ h : Hook, Owned h → Owned (run JSONparse acts h) := by
  induction acts with
  | nil => intro h ho; exact ho
  | cons a rest ih =>
    intro h ho
    exact ih (step JSONparse a h) (owned_step JSONparse a h ho)

theorem owned_of_reachable (JSONparse : String → Option JsVal) (h : Hook)
    (hr : Reachable JSONparse h) : Owned h := by
  obtain ⟨c, acts, rfl⟩ := hr
  exact owned_run JSONparse acts _ (owned_connectWebSocket c _ owned_initial rfl)

/-! ## After the cleanup -/

theorem silent_updateSocket (h : Hook) (i : Nat) (f : Socket → Socket)
    (hf : ∀ s, (f s).attached = s.attached) (hs : Silent h) : Silent (h.updateSocket i f) := by
  constructor
  · rw [updateSocket_pending]; exact hs.1
  · intro s hmem
    obtain ⟨j, hj⟩ := List.mem_iff_getElem?.mp hmem
    rw [updateSocket_getElem?] at hj
    split at hj
    · cases hj0 : h.sockets[j]? with
      | none => rw [hj0] at hj; cases hj
      | some s0 =>
        rw [hj0] at hj
        cases hj
        rw [hf s0]
        exact hs.2 s0 (List.mem_iff_getElem?.mpr ⟨j, hj0⟩)
    · exact hs.2 s (List.mem_iff_getElem?.mpr ⟨j, hj⟩)

theorem callbacks_of_not_attached (s : Socket) (hs : s.attached = false) :
    s.onopen = false ∧ s.onmessage = false ∧ s.onerror = false ∧ s.onclose = false := by
  unfold Socket.attached at hs
  simp only [Bool.or_eq_false_iff] at hs
  exact ⟨hs.1.1.1, hs.1.1.2, hs.1.2, hs.2⟩

theorem silent_step (JSONparse : String → Option JsVal) (a : Action) (h : Hook)
    (hs : Silent h) :
    Silent (step JSONparse a h) ∧
    (step JSONparse a h).sockets.length = h.sockets.length ∧
    (step JSONparse a h).timers = h.timers := by
  cases a with
  | fire id c =>
    have hid : id ∉ h.pending := by rw [hs.1]; exact List.not_mem_nil id
    have e : step JSONparse (.fire id c) h = h := by
      simp only [step, fireTimer, if_neg hid]
    rw [e]
    exact ⟨hs, rfl, rfl⟩
  | event sock ev =>
    cases hsock : h.sockets[sock]? with
    | none =>
      have e : step JSONparse (.event sock ev) h = h := by
        simp only [step, deliver, hsock]
      rw [e]
      exact ⟨hs, rfl, rfl⟩
    | some s =>
      have hcb := callbacks_of_not_attached s
        (hs.2 s (List.mem_iff_getElem?.mpr ⟨sock, hsock⟩))
      cases ev with
      | opened =>
        have e : step JSONparse (.event sock .opened) h
            = h.updateSocket sock (fun s => { s with readyState := .OPEN }) := by
          simp [step, deliver, hsock, hcb.1]
        rw [e]
        exact ⟨silent_updateSocket h sock _ (fun _ => rfl) hs, by simp, by simp⟩
      | message text =>
        have e : step JSONparse (.event sock (.message text)) h = h := by
          simp [step, deliver, hsock, hcb.2.1]
        rw [e]
        exact ⟨hs, rfl, rfl⟩
      | errored =>
        have e : step JSONparse (.event sock .errored) h = h := by
          simp [step, deliver, hsock, hcb.2.2.1]
        rw [e]
        exact ⟨hs, rfl, rfl⟩
      | closed =>
        have e : step JSONparse (.event sock .closed) h
            = h.updateSocket sock (fun s => { s with readyState := .CLOSED }) := by
          simp [step, deliver, hsock, hcb.2.2.2]
        rw [e]
        exact ⟨silent_updateSocket h sock _ (fun _ => rfl) hs, by simp, by simp⟩
  | send command data =>
    simp only [step]
    refine ⟨?_, sendControl_length command data h, ?_⟩
    · unfold sendControl
      split
      · split
        · exact silent_updateSocket h _ _ (fun _ => rfl) hs
        · exact hs
      · exact hs
    · rw [sendControl_eq]
  | unmount =>
    exact ⟨silent_cleanup h (owned_of_silent h hs), cleanup_length h, cleanup_timers h⟩

theorem silent_run (JSONparse : String → Option JsVal) (acts : List Action) :
    ∀ h : Hook, Silent h →
      Silent (run JSONparse acts h) ∧
      (run JSONparse acts h).sockets.length = h.sockets.length ∧
      (run JSONparse acts h).timers = h.timers := by
  induction acts with
  | nil => intro h hs; exact ⟨hs, rfl, rfl⟩
  | cons a rest ih =>
    intro h hs
    have ha := silent_step JSONparse a h hs
    have hrest := ih (step JSONparse a h) ha.1
    exact ⟨hrest.1, hrest.2.1.trans ha.2.1, hrest.2.2.trans ha.2.2⟩

/-! ## Connect requests that go through -/

theorem close_readyState (s : Socket) :
    s.close.readyState ≠ .CONNECTING ∧ s.close.readyState ≠ .OPEN := by
  unfold Socket.close
  split
  · exact ⟨by simp, by simp⟩
  · exact ⟨by simp, by simp⟩
  · rename_i h1 h2
    exact ⟨h1, h2⟩

theorem discardSocket_not_live (h : Hook) :
    ¬ (h.discardSocket.readyState? = some .CONNECTING ∨
       h.discardSocket.readyState? = some .OPEN) := by
  have key : ∀ r, h.discardSocket.readyState? = some r → r ≠ .CONNECTING ∧ r ≠ .OPEN := by
    intro r hr
    unfold Hook.readyState? at hr
    rw [discardSocket_ws] at hr
    cases hw : h.ws with
    | none => rw [hw] at hr; cases hr
    | some i =>
      rw [hw] at hr
      simp only [Hook.discardSocket, hw] at hr
      rw [updateSocket_getElem?] at hr
      simp only [if_true] at hr
      cases hi : h.sockets[i]? with
      | none => rw [hi] at hr; cases hr
      | some s0 =>
        rw [hi] at hr
        simp only [Option.map_some'] at hr
        cases hr
        exact close_readyState s0.detach
  rintro (h1 | h2)
  · exact (key _ h1).1 rfl
  · exact (key _ h2).2 rfl

theorem connectWebSocket_throws (h : Hook)
    (hnl : ¬ (h.readyState? = some .CONNECTING ∨ h.readyState? = some .OPEN))
    (hc : h.reconnectAttempts < maxReconnectAttempts) :
    connectWebSocket true h
      = { h.discardSocket with
            reconnectAttempts := h.reconnectAttempts + 1
            timers := h.timers ++ [5000]
            pending := h.pending ++ [h.timers.length + 1]
            reconnectTimeout := some (h.timers.length + 1) } := by
  unfold connectWebSocket
  rw [if_neg hnl, if_neg (Nat.not_le.mpr hc)]
  simp [Hook.scheduleReconnect]

theorem connectWebSocket_constructs (h : Hook)
    (hnl : ¬ (h.readyState? = some .CONNECTING ∨ h.readyState? = some .OPEN))
    (hc : h.reconnectAttempts < maxReconnectAttempts) :
    connectWebSocket false h
      = { h.discardSocket with
            sockets := h.discardSocket.sockets ++ [Socket.fresh]
            ws := some h.sockets.length } := by
  unfold connectWebSocket
  rw [if_neg hnl, if_neg (Nat.not_le.mpr hc)]
  simp

/-- The close event of a socket that was just constructed. -/
theorem deliver_closed_fresh (JSONparse : String → Option JsVal) (g : Hook) (n w : Nat)
    (hn : n = g.sockets.length) (hflag : g.isIntentionallyClosed = false) :
    (deliver JSONparse n .closed
      { g with sockets := g.sockets ++ [Socket.fresh], ws := some w }).timers
      = g.timers ++ [min (3000 * 2 ^ g.reconnectAttempts) 48000] := by
  subst hn
  have hs : ({ g with sockets := g.sockets ++ [Socket.fresh],
                      ws := some w } : Hook).sockets[g.sockets.length]?
      = some Socket.fresh := List.getElem?_concat_length _ _
  rw [deliver_closed JSONparse _ _ Socket.fresh hs rfl,
    onclose_unintended _ (by simpa using hflag)]
  simp

/-! ## One timer at a time, and the latest socket -/

theorem reachable_step (JSONparse : String → Option JsVal) (a : Action) (h : Hook)
    (hr : Reachable JSONparse h) : Reachable JSONparse (step JSONparse a h) := by
  obtain ⟨c, acts, rfl⟩ := hr
  exact ⟨c, acts ++ [a], by simp [run, List.foldl_append]⟩

theorem owned_filter_fired (h : Hook) (id : Nat) (ho : Owned h) (hid : id ∈ h.pending) :
    h.pending.filter (fun j => j != id) = [] := by
  have href := (ho.1 id hid).1
  apply List.filter_eq_nil_iff.mpr
  intro j hj
  have hj2 := (ho.1 j hj).1
  rw [href] at hj2
  simp [Option.some.inj hj2]

theorem connectWebSocket_pending_le (c : Bool) (h : Hook) (hp : h.pending = []) :
    (connectWebSocket c h).pending.length ≤ 1 := by
  unfold connectWebSocket
  split
  · simp [hp]
  · split
    · simp [hp]
    · dsimp only
      split
      · simp [Hook.scheduleReconnect, hp]
      · simp [hp]

theorem onclose_pending_le (h : Hook) (ho : Owned h) (hl : h.pending.length ≤ 1) :
    (onclose h).pending.length ≤ 1 := by
  cases hflag : h.isIntentionallyClosed with
  | true => rw [onclose_intentional h hflag]; exact hl
  | false =>
    rw [onclose_unintended h hflag]
    have hclear : ({ h with isConnected := false } : Hook).clearReconnectTimeout.pending = [] :=
      owned_clear_pending _ (owned_of_fields h _ rfl rfl rfl rfl ho)
    simp [hclear]

theorem pending_le_one_step (JSONparse : String → Option JsVal) (a : Action) (h : Hook)
    (ho : Owned h) (hl : h.pending.length ≤ 1) :
    (step JSONparse a h).pending.length ≤ 1 := by
  cases a with
  | fire id c =>
    simp only [step, fireTimer]
    split
    · rename_i hid
      exact connectWebSocket_pending_le c _ (owned_filter_fired h id ho hid)
    · exact hl
  | event sock ev =>
    simp only [step, deliver]
    split
    · exact hl
    · cases ev with
      | opened =>
        dsimp only
        split
        · simpa [onopen] using hl
        · simpa using hl
      | message text =>
        dsimp only
        split
        · rw [onmessage_eq]; exact hl
        · exact hl
      | errored =>
        dsimp only
        split <;> exact hl
      | closed =>
        dsimp only
        split
        · exact onclose_pending_le _
            (owned_updateSocket h sock _ (fun _ => rfl) ho) (by simpa using hl)
        · simpa using hl
  | send command data =>
    simp only [step]
    rw [sendControl_eq]
    exact hl
  | unmount =>
    simp only [step]
    rw [(silent_cleanup h ho).1]
    exact Nat.zero_le 1

theorem pending_le_one_run (JSONparse : String → Option JsVal) (acts : List Action) :
    ∀ h : Hook, Owned h → h.pending.length ≤ 1 →
      (run JSONparse acts h).pending.length ≤ 1 := by
  induction acts with
  | nil => intro h _ hl; exact hl
  | cons a rest ih =>
    intro h ho hl
    exact ih (step JSONparse a h) (owned_step JSONparse a h ho)
      (pending_le_one_step JSONparse a h ho hl)

theorem pending_le_one_of_reachable (JSONparse : String → Option JsVal) (h : Hook)
    (hr : Reachable JSONparse h) : h.pending.length ≤ 1 := by
  obtain ⟨c, acts, rfl⟩ := hr
  exact pending_le_one_run JSONparse acts _ (owned_connectWebSocket c _ owned_initial rfl)
    (connectWebSocket_pending_le c _ rfl)

theorem latest_of_fields (h g : Hook) (hw : g.ws = h.ws)
    (hl : g.sockets.length = h.sockets.length) (hlat : Latest h) : Latest g := by
  unfold Latest
  rw [hw, hl]
  exact hlat

theorem latest_connectWebSocket (c : Bool) (h : Hook) (hlat : Latest h) :
    Latest (connectWebSocket c h) := by
  unfold connectWebSocket
  split
  · exact hlat
  · split
    · exact hlat
    · dsimp only
      split
      · exact latest_of_fields h _ (by simp [Hook.scheduleReconnect])
          (by simp [Hook.scheduleReconnect]) hlat
      · simp [Latest]

theorem latest_step (JSONparse : String → Option JsVal) (a : Action) (h : Hook)
    (hlat : Latest h) : Latest (step JSONparse a h) := by
  cases a with
  | fire id c =>
    simp only [step, fireTimer]
    split
    · exact latest_connectWebSocket c _ (latest_of_fields h _ rfl rfl hlat)
    · exact hlat
  | event sock ev =>
    simp only [step, deliver]
    split
    · exact hlat
    · cases ev with
      | opened =>
        dsimp only
        split
        · exact latest_of_fields h _ (by simp [onopen]) (by simp [onopen]) hlat
        · exact latest_of_fields h _ (by simp) (by simp) hlat
      | message text =>
        dsimp only
        split
        · rw [onmessage_eq]; exact latest_of_fields h _ rfl rfl hlat
        · exact hlat
      | errored =>
        dsimp only
        split <;> exact hlat
      | closed =>
        dsimp only
        split
        · cases hflag : h.isIntentionallyClosed with
          | true =>
            rw [onclose_intentional _ (by simpa using hflag)]
            exact latest_of_fields h _ (by simp) (by simp) hlat
          | false =>
            rw [onclose_unintended _ (by simpa using hflag)]
            exact latest_of_fields h _ (by simp) (by simp) hlat
        · exact latest_of_fields h _ (by simp) (by simp) hlat
  | send command data =>
    simp only [step]
    refine latest_of_fields h _ ?_ (sendControl_length command data h) hlat
    rw [sendControl_eq]
  | unmount =>
    simp only [step]
    exact latest_of_fields h _ (by simp [cleanup]) (cleanup_length h) hlat

theorem latest_of_reachable (JSONparse : String → Option JsVal) (h : Hook)
    (hr : Reachable JSONparse h) : Latest h := by
  obtain ⟨c, acts, rfl⟩ := hr
  have hstart : Latest (mount c Hook.initial) :=
    latest_connectWebSocket c _ (by simp [Latest, Hook.initial])
  generalize mount c Hook.initial = g at hstart
  induction acts generalizing g with
  | nil => exact hstart
  | cons a rest ih => exact ih (step JSONparse a g) (latest_step JSONparse a g hstart)

/-! ## The counter never passes the ceiling -/

theorem capped_of_lt (h : Hook) (hlt : h.reconnectAttempts < maxReconnectAttempts) :
    Capped h :=
  ⟨Nat.le_of_lt hlt, fun heq => absurd heq (Nat.ne_of_lt hlt)⟩

theorem capped_of_fields (h g : Hook) (hc : g.reconnectAttempts = h.reconnectAttempts)
    (hs : g.sockets = h.sockets) (hk : Capped h) : Capped g := by
  unfold Capped
  rw [hc, hs]
  exact hk

theorem capped_of_not_attached (h : Hook) (hle : h.reconnectAttempts ≤ maxReconnectAttempts)
    (hna : ∀ (j : Nat) (s : Socket), h.sockets[j]? = some s → s.attached = false) :
    Capped h := by
  refine ⟨hle, fun _ j s hj hatt => ?_⟩
  rw [hna j s hj] at hatt
  cases hatt

theorem capped_updateSocket (h : Hook) (i : Nat) (f : Socket → Socket)
    (hkeep : ∀ s0, h.sockets[i]? = some s0 → (f s0).attached = true →
      s0.attached = true ∧ (s0.readyState = .CLOSED → (f s0).readyState = .CLOSED))
    (hk : Capped h) : Capped (h.updateSocket i f) := by
  refine ⟨by rw [updateSocket_reconnectAttempts]; exact hk.1, ?_⟩
  intro heq j s hj hatt
  rw [updateSocket_reconnectAttempts] at heq
  rw [updateSocket_getElem?] at hj
  split at hj
  · rename_i hij
    subst hij
    cases h0 : h.sockets[i]? with
    | none => rw [h0] at hj; cases hj
    | some s0 =>
      rw [h0] at hj
      cases hj
      obtain ⟨ha, hc⟩ := hkeep s0 h0 hatt
      exact hc (hk.2 heq i s0 h0 ha)
  · exact hk.2 heq j s hj hatt

theorem capped_connectWebSocket (c : Bool) (h : Hook) (ho : Owned h) (hk : Capped h) :
    Capped (connectWebSocket c h) := by
  by_cases hlive : h.readyState? = some .CONNECTING ∨ h.readyState? = some .OPEN
  · rw [connectWebSocket_live c h hlive]; exact hk
  · by_cases hc : maxReconnectAttempts ≤ h.reconnectAttempts
    · rw [connectWebSocket_ceiling c h hc]; exact hk
    · have hlt : h.reconnectAttempts < maxReconnectAttempts := Nat.lt_of_not_le hc
      cases c with
      | true =>
        rw [connectWebSocket_throws h hlive hlt]
        exact capped_of_not_attached _ hlt (discardSocket_not_attached h ho)
      | false =>
        rw [connectWebSocket_constructs h hlive hlt]
        exact capped_of_lt _ (by simpa using hlt)

theorem capped_onclose (h : Hook) (i : Nat) (s : Socket) (ho : Owned h)
    (hs : h.sockets[i]? = some s) (hatt : s.attached = true)
    (hclosed : s.readyState = .CLOSED) (hlt : h.reconnectAttempts < maxReconnectAttempts) :
    Capped (onclose h) := by
  cases hflag : h.isIntentionallyClosed with
  | true =>
    rw [onclose_intentional h hflag]
    exact capped_of_lt _ hlt
  | false =>
    rw [onclose_unintended h hflag]
    refine ⟨hlt, fun _ j s1 hj hatt1 => ?_⟩
    have hwj : h.ws = some j := ho.2 j s1 hj hatt1
    have hwi : h.ws = some i := ho.2 i s hs hatt
    rw [hwj] at hwi
    have hji : j = i := Option.some.inj hwi
    subst hji
    have hj' : h.sockets[j]? = some s1 := hj
    rw [hs] at hj'
    cases hj'
    exact hclosed

theorem capped_step (JSONparse : String → Option JsVal) (a : Action) (h : Hook)
    (ho : Owned h) (hk : Capped h) (hp : a.permitted h = true) :
    Capped (step JSONparse a h) := by
  cases a with
  | fire id c =>
    simp only [step, fireTimer]
    split
    · exact capped_connectWebSocket c _
        ⟨fun j hj => ho.1 j (List.mem_filter.mp hj).1, ho.2⟩
        (capped_of_fields h _ rfl rfl hk)
    · exact hk
  | send command data =>
    simp only [step, sendControl]
    split
    · split
      · exact capped_updateSocket h _ _ (fun s0 _ ha => ⟨ha, fun hc => hc⟩) hk
      · exact hk
    · exact hk
  | unmount =>
    have hsil := silent_cleanup h ho
    show Capped (cleanup h)
    refine capped_of_not_attached _ (by rw [cleanup_reconnectAttempts]; exact hk.1) ?_
    intro j s hj
    exact hsil.2 s (List.mem_iff_getElem?.mpr ⟨j, hj⟩)
  | event sock ev =>
    cases hs : h.sockets[sock]? with
    | none => simp [Action.permitted, hs] at hp
    | some s =>
      have hopen : s.readyState ≠ .CLOSED := by
        simpa [Action.permitted, hs] using hp
      by_cases hatt : s.attached = true
      · have hlt : h.reconnectAttempts < maxReconnectAttempts := by
          rcases Nat.lt_or_ge h.reconnectAttempts maxReconnectAttempts with hlt | hge
          · exact hlt
          · exact absurd (hk.2 (Nat.le_antisymm hk.1 hge) sock s hs hatt) hopen
        cases ev with
        | opened =>
          simp only [step, deliver, hs]
          split
          · exact capped_of_lt _ (by simp [onopen, maxReconnectAttempts])
          · exact capped_of_lt _ (by simpa using hlt)
        | message text =>
          simp only [step, deliver, hs]
          split
          · rw [onmessage_eq]; exact capped_of_lt _ hlt
          · exact hk
        | errored =>
          simp only [step, deliver, hs, onerror]
          split <;> exact hk
        | closed =>
          simp only [step, deliver, hs]
          split
          · refine capped_onclose _ sock { s with readyState := .CLOSED }
              (owned_updateSocket h sock _ (fun _ => rfl) ho) ?_ hatt rfl (by simpa using hlt)
            rw [updateSocket_getElem?]
            simp [hs]
          · exact capped_of_lt _ (by simpa using hlt)
      · have hna : s.attached = false := by
          cases hb : s.attached with
          | false => rfl
          | true => exact absurd hb hatt
        have hcb := callbacks_of_not_attached s hna
        have hupd : ∀ r : ReadyState,
            Capped (h.updateSocket sock (fun s => { s with readyState := r })) := by
          intro r
          refine capped_updateSocket h sock _ ?_ hk
          intro s0 hs0 ha
          rw [hs] at hs0
          cases hs0
          rw [show ({ s with readyState := r } : Socket).attached = s.attached from rfl,
            hna] at ha
          cases ha
        cases ev with
        | opened => simpa [step, deliver, hs, hcb.1] using hupd .OPEN
        | message text => simpa [step, deliver, hs, hcb.2.1] using hk
        | errored => simpa [step, deliver, hs, hcb.2.2.1] using hk
        | closed => simpa [step, deliver, hs, hcb.2.2.2] using hupd .CLOSED

theorem owned_capped_of_orderly (JSONparse : String → Option JsVal) (h : Hook)
    (hr : ReachableOrderly JSONparse h) : Owned h ∧ Capped h := by
  induction hr with
  | mounted c =>
    have ho : Owned Hook.initial := owned_initial
    exact ⟨owned_connectWebSocket c _ ho rfl,
      capped_connectWebSocket c _ ho (capped_of_lt _ (by decide))⟩
  | after a g _ hp ih =>
    exact ⟨owned_step JSONparse a g ih.1, capped_step JSONparse a g ih.1 ih.2 hp⟩

/-! ## The connected indicator after the cleanup -/

theorem onclose_isConnected (h : Hook) : (onclose h).isConnected = false := by
  cases hflag : h.isIntentionallyClosed with
  | true => rw [onclose_intentional h hflag]
  | false => rw [onclose_unintended h hflag]

theorem silent_step_isConnected (JSONparse : String → Option JsVal) (a : Action) (h : Hook)
    (hs : Silent h) : (step JSONparse a h).isConnected = h.isConnected := by
  cases a with
  | fire id c =>
    have hid : id ∉ h.pending := by rw [hs.1]; exact List.not_mem_nil id
    simp only [step, fireTimer, if_neg hid]
  | event sock ev =>
    cases hsock : h.sockets[sock]? with
    | none => simp only [step, deliver, hsock]
    | some s =>
      have hcb := callbacks_of_not_attached s
        (hs.2 s (List.mem_iff_getElem?.mpr ⟨sock, hsock⟩))
      cases ev with
      | opened => simp [step, deliver, hsock, hcb.1]
      | message text => simp [step, deliver, hsock, hcb.2.1]
      | errored => simp [step, deliver, hsock, hcb.2.2.1]
      | closed => simp [step, deliver, hsock, hcb.2.2.2]
  | send command data =>
    simp only [step]
    rw [sendControl_eq]
  | unmount => exact cleanup_isConnected h

theorem silent_run_isConnected (JSONparse : String → Option JsVal) (acts : List Action) :
    ∀ h : Hook, Silent h → (run JSONparse acts h).isConnected = h.isConnected := by
  induction acts with
  | nil => intro h _; rfl
  | cons a rest ih =>
    intro h hs
    have ha := silent_step JSONparse a h hs
    exact (ih (step JSONparse a h) ha.1).trans (silent_step_isConnected JSONparse a h hs)

/-! ## The mobile hook: closures without end -/

theorem mobile_closures_outcome (JSONparse : String → Option JsVal) (n : Nat) :
    (Mobile.closures JSONparse n).sockets.length = n + 1 ∧
    (Mobile.closures JSONparse n).sockets[n]? = some Socket.fresh ∧
    (Mobile.closures JSONparse n).timers = List.replicate n 3000 ∧
    (Mobile.closures JSONparse n).pending = [] := by
  induction n with
  | zero =>
    simp [Mobile.closures, Mobile.mount, Mobile.connectWebSocket, Mobile.Hook.initial]
  | succ n ih =>
    obtain ⟨hlen, hlast, htimers, hpending⟩ := ih
    have hn : n < (Mobile.closures JSONparse n).sockets.length := by omega
    have hfresh : Socket.fresh.onclose = true := rfl
    simp only [Mobile.closures, Mobile.closureRound, Mobile.deliver, hlast, hfresh, if_true,
      Mobile.Hook.updateSocket, Mobile.onclose, Mobile.fireTimer, htimers, hpending,
      List.length_replicate, List.nil_append, List.mem_singleton, Mobile.connectWebSocket]
    refine ⟨by simp [hlen], ?_, ?_, by simp⟩
    · have hl : ((Mobile.closures JSONparse n).sockets.set n
          { Socket.fresh with readyState := .CLOSED }).length = n + 1 := by
        simp [hlen]
      simp only [Bool.false_eq_true, if_false]
      rw [← hl]
      exact List.getElem?_concat_length _ _
    · simp [List.replicate_succ']

/-! ## Object spread -/

theorem lookup_cons_ite (k a : String) (b : JsVal) (es : JsObj) :
    List.lookup k ((a, b) :: es) = if k = a then some b else List.lookup k es := by
  by_cases hk : k = a
  · subst hk; simp [List.lookup_cons]
  · rw [if_neg hk, List.lookup_cons, beq_eq_false_iff_ne.mpr hk]

theorem lookup_insertIndexed_ne (n : Nat) (k k' : String) (v : JsVal) (hne : k ≠ k') :
    ∀ o : JsObj, (insertIndexed n k' v o).lookup k = o.lookup k := by
  intro o
  induction o with
  | nil => simp [insertIndexed, lookup_cons_ite, hne]
  | cons p rest ih =>
    obtain ⟨a, b⟩ := p
    unfold insertIndexed
    split
    · split
      · rw [lookup_cons_ite, lookup_cons_ite, ih]
      · rw [lookup_cons_ite, if_neg hne]
    · rw [lookup_cons_ite, if_neg hne]

theorem lookup_insertIndexed_self (n : Nat) (k : String) (v : JsVal) :
    ∀ o : JsObj, (∀ p ∈ o, p.1 ≠ k) → (insertIndexed n k v o).lookup k = some v := by
  intro o
  induction o with
  | nil => intro _; simp [insertIndexed, lookup_cons_ite]
  | cons p rest ih =>
    intro hall
    obtain ⟨a, b⟩ := p
    have ha : k ≠ a := fun e => hall (a, b) (List.mem_cons_self _ _) e.symm
    unfold insertIndexed
    split
    · split
      · rw [lookup_cons_ite, if_neg ha]
        exact ih (fun q hq => hall q (List.mem_cons_of_mem _ hq))
      · rw [lookup_cons_ite, if_pos rfl]
    · rw [lookup_cons_ite, if_pos rfl]

theorem lookup_replace_self (k : String) (v : JsVal) :
    ∀ o : JsObj, o.any (fun p => p.1 == k) = true →
      (o.map (fun p => if p.1 == k then (k, v) else p)).lookup k = some v := by
  intro o
  induction o with
  | nil => intro hany; simp at hany
  | cons p rest ih =>
    intro hany
    obtain ⟨a, b⟩ := p
    by_cases hak : a = k
    · subst hak
      simp [lookup_cons_ite]
    · have hany2 : rest.any (fun p => p.1 == k) = true := by
        simpa [hak] using hany
      have hka : k ≠ a := fun e => hak e.symm
      simp only [List.map_cons, beq_eq_false_iff_ne.mpr hak, Bool.false_eq_true, if_false]
      rw [lookup_cons_ite, if_neg hka]
      exact ih hany2

theorem lookup_replace_ne (k k' : String) (v : JsVal) (hne : k ≠ k') :
    ∀ o : JsObj, (o.map (fun p => if p.1 == k' then (k', v) else p)).lookup k
      = o.lookup k := by
  intro o
  induction o with
  | nil => rfl
  | cons p rest ih =>
    obtain ⟨a, b⟩ := p
    by_cases hak : a = k'
    · subst hak
      simp only [List.map_cons, beq_self_eq_true, if_true]
      rw [lookup_cons_ite, lookup_cons_ite, if_neg hne, if_neg hne]
      exact ih
    · simp only [List.map_cons, beq_eq_false_iff_ne.mpr hak, Bool.false_eq_true, if_false]
      rw [lookup_cons_ite, lookup_cons_ite, ih]

theorem lookup_append_singleton_ne (k k' : String) (v : JsVal) (hne : k ≠ k') :
    ∀ o : JsObj, (o ++ [(k', v)]).lookup k = o.lookup k := by
  intro o
  induction o with
  | nil => simp [lookup_cons_ite, hne]
  | cons p rest ih =>
    obtain ⟨a, b⟩ := p
    rw [List.cons_append, lookup_cons_ite, lookup_cons_ite, ih]

theorem lookup_append_singleton_self (k : String) (v : JsVal) :
    ∀ o : JsObj, (∀ p ∈ o, p.1 ≠ k) → (o ++ [(k, v)]).lookup k = some v := by
  intro o
  induction o with
  | nil => intro _; simp [lookup_cons_ite]
  | cons p rest ih =>
    intro hall
    obtain ⟨a, b⟩ := p
    have ha : k ≠ a := fun e => hall (a, b) (List.mem_cons_self _ _) e.symm
    rw [List.cons_append, lookup_cons_ite, if_neg ha]
    exact ih (fun q hq => hall q (List.mem_cons_of_mem _ hq))

theorem lookup_set (o : JsObj) (k k' : String) (v : JsVal) :
    (o.set k' v).lookup k = if k = k' then some v else o.lookup k := by
  unfold JsObj.set
  by_cases hk : k = k'
  · subst hk
    rw [if_pos rfl]
    split
    · rename_i hany
      exact lookup_replace_self k v o hany
    · rename_i hany
      have hall : ∀ p ∈ o, p.1 ≠ k := by
        intro p hp e
        apply hany
        exact List.any_eq_true.mpr ⟨p, hp, by simp [e]⟩
      split
      · exact lookup_insertIndexed_self _ k v o hall
      · exact lookup_append_singleton_self k v o hall
  · rw [if_neg hk]
    split
    · exact lookup_replace_ne k k' v hk o
    · split
      · exact lookup_insertIndexed_ne _ k k' v hk o
      · exact lookup_append_singleton_ne k k' v hk o

theorem lookup_spread_absent (k : String) :
    ∀ (src target : JsObj), src.lookup k = none →
      (JsObj.spread target src).lookup k = target.lookup k := by
  intro src
  induction src with
  | nil => intro target _; rfl
  | cons p rest ih =>
    intro target hnone
    obtain ⟨a, b⟩ := p
    rw [lookup_cons_ite] at hnone
    by_cases hka : k = a
    · rw [if_pos hka] at hnone; cases hnone
    · rw [if_neg hka] at hnone
      show (JsObj.spread (target.set a b) rest).lookup k = _
      rw [ih _ hnone, lookup_set, if_neg hka]

theorem lookup_spread_present (k : String) (v : JsVal) :
    ∀ (src target : JsObj), (src.map Prod.fst).Nodup → src.lookup k = some v →
      (JsObj.spread target src).lookup k = some v := by
  intro src
  induction src with
  | nil => intro target _ hsome; cases hsome
  | cons p rest ih =>
    intro target hnodup hsome
    obtain ⟨a, b⟩ := p
    rw [List.map_cons, List.nodup_cons] at hnodup
    rw [lookup_cons_ite] at hsome
    show (JsObj.spread (target.set a b) rest).lookup k = _
    by_cases hka : k = a
    · subst hka
      rw [if_pos rfl] at hsome
      cases hsome
      have hrest : rest.lookup k = none := by
        apply List.lookup_eq_none_iff.mpr
        intro p hp
        rw [bne_iff_ne]
        intro e
        exact hnodup.1 (List.mem_map.mpr ⟨p, hp, e.symm⟩)
      rw [lookup_spread_absent k rest _ hrest, lookup_set, if_pos rfl]
    · rw [if_neg hka] at hsome
      exact ih _ hnodup.2 hsome

theorem sendControl_open (command : JsVal) (data : JsObj) (h : Hook) (i : Nat) (s : Socket)
    (hws : h.ws = some i) (hs : h.sockets[i]? = some s) (hopen : s.readyState = .OPEN) :
    sendControl command data h
      = { h with sockets :=
            h.sockets.set i { s with sent := s.sent ++ [controlFrame command data] } } := by
  have hr : h.readyState? = some .OPEN := by
    simp [Hook.readyState?, hws, hs, hopen]
  unfold sendControl
  split
  · rename_i j hj
    have hji : j = i := by rw [hws] at hj; exact (Option.some.inj hj).symm
    subst hji
    rw [if_pos hr]
    exact updateSocket_of_getElem? h j _ s hs
  · rename_i hn
    rw [hws] at hn
    cases hn

theorem mobile_sendControl_open (command : JsVal) (data : JsObj) (h : Mobile.Hook) (i : Nat)
    (s : Socket) (hws : h.ws = some i) (hs : h.sockets[i]? = some s)
    (hopen : s.readyState = .OPEN) :
    Mobile.sendControl command data h
      = { h with sockets :=
            h.sockets.set i { s with sent := s.sent ++ [controlFrame command data] } } := by
  have hr : h.readyState? = some .OPEN := by
    simp [Mobile.Hook.readyState?, hws, hs, hopen]
  unfold Mobile.sendControl
  split
  · rename_i j hj
    have hji : j = i := by rw [hws] at hj; exact (Option.some.inj hj).symm
    subst hji
    rw [if_pos hr]
    unfold Mobile.Hook.updateSocket
    rw [hs]
  · rename_i hn
    rw [hws] at hn
    cases hn

/-! ## The mobile hook after its cleanup -/

theorem mobile_updateSocket_pending (h : Mobile.Hook) (i : Nat) (f : Socket → Socket) :
    (h.updateSocket i f).pending = h.pending := by
  unfold Mobile.Hook.updateSocket; split <;> rfl

theorem mobile_updateSocket_length (h : Mobile.Hook) (i : Nat) (f : Socket → Socket) :
    (h.updateSocket i f).sockets.length = h.sockets.length := by
  unfold Mobile.Hook.updateSocket; split <;> simp

theorem mobile_onmessage_eq (JSONparse : String → Option JsVal) (text : String)
    (h : Mobile.Hook) :
    Mobile.onmessage JSONparse text h
      = { h with telemetry := (Mobile.onmessage JSONparse text h).telemetry } := by
  unfold Mobile.onmessage
  cases hm : Mobile.onmessageTry JSONparse text h with
  | none => rfl
  | some h1 =>
    unfold Mobile.onmessageTry at hm
    split at hm
    · cases hm
    · split at hm
      · cases hm
      · split at hm
        · split at hm
          · cases hm
          · cases hm; rfl
        · cases hm; rfl

theorem mobile_step_pending (JSONparse : String → Option JsVal) (a : Mobile.Action)
    (h : Mobile.Hook) (id : Nat) (hid : id ∈ h.pending) :
    id ∈ (Mobile.step JSONparse a h).pending := by
  cases a with
  | send command data =>
    simp only [Mobile.step, Mobile.sendControl]
    split
    · split
      · rw [mobile_updateSocket_pending]; exact hid
      · exact hid
    · exact hid
  | event sock ev =>
    simp only [Mobile.step, Mobile.deliver]
    split
    · exact hid
    · cases ev with
      | opened =>
        dsimp only
        split
        · simp only [Mobile.onopen, mobile_updateSocket_pending]; exact hid
        · rw [mobile_updateSocket_pending]; exact hid
      | message text =>
        dsimp only
        split
        · rw [mobile_onmessage_eq]; exact hid
        · exact hid
      | errored =>
        dsimp only
        split <;> exact hid
      | closed =>
        dsimp only
        split
        · simp only [Mobile.onclose, mobile_updateSocket_pending]
          exact List.mem_append_left _ hid
        · rw [mobile_updateSocket_pending]; exact hid

theorem mobile_run_pending (JSONparse : String → Option JsVal) (acts : List Mobile.Action)
    (id : Nat) : ∀ h : Mobile.Hook, id ∈ h.pending →
      id ∈ (Mobile.run JSONparse acts h).pending := by
  induction acts with
  | nil => intro h hid; exact hid
  | cons a rest ih =>
    intro h hid
    exact ih (Mobile.step JSONparse a h) (mobile_step_pending JSONparse a h id hid)

theorem mobile_fireTimer_constructs (h : Mobile.Hook) (id : Nat) (hid : id ∈ h.pending) :
    (Mobile.fireTimer false id h).sockets.length = h.sockets.length + 1 ∧
    id ∉ (Mobile.fireTimer false id h).pending := by
  unfold Mobile.fireTimer
  rw [if_pos hid]
  simp [Mobile.connectWebSocket, List.mem_filter]

/-! ## What the connected indicator implies -/

theorem connectWebSocket_isConnected (c : Bool) (h : Hook) :
    (connectWebSocket c h).isConnected = h.isConnected := by
  unfold connectWebSocket
  split
  · rfl
  · split
    · rfl
    · dsimp only
      split <;> simp [Hook.scheduleReconnect]

theorem connectWebSocket_flag (c : Bool) (h : Hook) :
    (connectWebSocket c h).isIntentionallyClosed = h.isIntentionallyClosed := by
  unfold connectWebSocket
  split
  · rfl
  · split
    · rfl
    · dsimp only
      split <;> simp [Hook.scheduleReconnect]

theorem cleanup_flag (h : Hook) : (cleanup h).isIntentionallyClosed = true := by
  simp [cleanup]

theorem cleanup_ws (h : Hook) : (cleanup h).ws = h.ws := by
  simp [cleanup]

theorem onclose_flag (h : Hook) :
    (onclose h).isIntentionallyClosed = h.isIntentionallyClosed := by
  cases hflag : h.isIntentionallyClosed with
  | true => rw [onclose_intentional h hflag]; exact hflag
  | false => rw [onclose_unintended h hflag]; exact hflag

theorem step_flag_true (JSONparse : String → Option JsVal) (a : Action) (h : Hook)
    (hf : (step JSONparse a h).isIntentionallyClosed = true) :
    h.isIntentionallyClosed = true ∨ a = .unmount := by
  cases a with
  | unmount => exact Or.inr rfl
  | fire id c =>
    left
    simp only [step, fireTimer] at hf
    split at hf
    · rw [connectWebSocket_flag] at hf; exact hf
    · exact hf
  | send command data =>
    left
    simp only [step] at hf
    rw [sendControl_eq] at hf
    exact hf
  | event sock ev =>
    left
    simp only [step, deliver] at hf
    split at hf
    · exact hf
    · cases ev with
      | opened =>
        dsimp only at hf
        split at hf
        · simp [onopen] at hf
        · simpa using hf
      | message text =>
        dsimp only at hf
        split at hf
        · rw [onmessage_eq] at hf; exact hf
        · exact hf
      | errored =>
        dsimp only at hf
        split at hf <;> exact hf
      | closed =>
        dsimp only at hf
        split at hf
        · rw [onclose_flag] at hf; simpa using hf
        · simpa using hf

theorem tornSilent_step (JSONparse : String → Option JsVal) (a : Action) (h : Hook)
    (ho : Owned h) (ht : TornSilent h) : TornSilent (step JSONparse a h) := by
  intro hf
  rcases step_flag_true JSONparse a h hf with hbefore | hun
  · exact (silent_step JSONparse a h (ht hbefore)).1
  · subst hun
    exact silent_cleanup h ho

theorem whole_of_sockets (h g : Hook) (hs : g.sockets = h.sockets) (hw : Whole h) :
    Whole g := by
  unfold Whole
  rw [hs]
  exact hw

theorem whole_updateSocket (h : Hook) (i : Nat) (f : Socket → Socket)
    (hf : ∀ s : Socket, s.whole → (f s).whole) (hw : Whole h) :
    Whole (h.updateSocket i f) := by
  intro j s hj
  rw [updateSocket_getElem?] at hj
  split at hj
  · cases h0 : h.sockets[j]? with
    | none => rw [h0] at hj; cases hj
    | some s0 =>
      rw [h0] at hj
      cases hj
      exact hf s0 (hw j s0 h0)
  · exact hw j s hj

theorem whole_discardSocket (h : Hook) (hw : Whole h) : Whole h.discardSocket := by
  unfold Hook.discardSocket
  split
  · refine whole_updateSocket h _ _ (fun s _ hatt => ?_) hw
    rw [attached_detach_close] at hatt
    cases hatt
  · exact hw

theorem whole_connectWebSocket (c : Bool) (h : Hook) (hw : Whole h) :
    Whole (connectWebSocket c h) := by
  unfold connectWebSocket
  split
  · exact hw
  · split
    · exact hw
    · dsimp only
      split
      · exact whole_of_sockets h.discardSocket _ (by simp [Hook.scheduleReconnect])
          (whole_discardSocket h hw)
      · intro j s hj
        simp only at hj
        rw [List.getElem?_append] at hj
        split at hj
        · exact whole_discardSocket h hw j s hj
        · intro _
          have hmem : s ∈ [Socket.fresh] := List.mem_iff_getElem?.mpr ⟨_, hj⟩
          rw [List.mem_singleton] at hmem
          subst hmem
          exact ⟨rfl, rfl, rfl, rfl⟩

theorem whole_step (JSONparse : String → Option JsVal) (a : Action) (h : Hook)
    (hw : Whole h) : Whole (step JSONparse a h) := by
  cases a with
  | fire id c =>
    simp only [step, fireTimer]
    split
    · exact whole_connectWebSocket c _ (whole_of_sockets h _ rfl hw)
    · exact hw
  | send command data =>
    simp only [step, sendControl]
    split
    · split
      · exact whole_updateSocket h _ _ (fun _ hs => hs) hw
      · exact hw
    · exact hw
  | unmount =>
    show Whole (cleanup h)
    unfold cleanup
    exact whole_discardSocket _ (whole_of_sockets h _ (by simp) hw)
  | event sock ev =>
    simp only [step, deliver]
    split
    · exact hw
    · cases ev with
      | opened =>
        have h1 := whole_updateSocket h sock (fun s => { s with readyState := .OPEN })
          (fun _ hs => hs) hw
        dsimp only
        split
        · exact whole_of_sockets _ _ rfl h1
        · exact h1
      | message text =>
        dsimp only
        split
        · rw [onmessage_eq]; exact whole_of_sockets h _ rfl hw
        · exact hw
      | errored =>
        dsimp only
        split <;> exact hw
      | closed =>
        have h1 := whole_updateSocket h sock (fun s => { s with readyState := .CLOSED })
          (fun _ hs => hs) hw
        dsimp only
        split
        · cases hflag : h.isIntentionallyClosed with
          | true =>
            rw [onclose_intentional _ (by simpa using hflag)]
            exact whole_of_sockets _ _ rfl h1
          | false =>
            rw [onclose_unintended _ (by simpa using hflag)]
            exact whole_of_sockets _ _ rfl h1
        · exact h1

theorem readyState?_updateSocket_keep (h : Hook) (i : Nat) (f : Socket → Socket)
    (hf : ∀ s : Socket, (f s).readyState = s.readyState) :
    (h.updateSocket i f).readyState? = h.readyState? := by
  unfold Hook.readyState?
  rw [updateSocket_ws]
  cases h.ws with
  | none => rfl
  | some w =>
    simp only
    rw [updateSocket_getElem?]
    split
    · cases h.sockets[w]? with
      | none => rfl
      | some s0 => simp [hf s0]
    · rfl

theorem readyState?_updateSocket_other (h : Hook) (i : Nat) (f : Socket → Socket)
    (hw : h.ws ≠ some i) : (h.updateSocket i f).readyState? = h.readyState? := by
  unfold Hook.readyState?
  rw [updateSocket_ws]
  cases hws : h.ws with
  | none => rfl
  | some w =>
    have hiw : ¬ i = w := fun e => hw (by rw [hws, e])
    simp only
    rw [updateSocket_getElem?, if_neg hiw]

theorem readyState?_current (h : Hook) (i : Nat) (s : Socket) (hw : h.ws = some i)
    (hs : h.sockets[i]? = some s) : h.readyState? = some s.readyState := by
  unfold Hook.readyState?
  rw [hw]
  simp [hs]

theorem readyState?_updateSocket_current (h : Hook) (i : Nat) (f : Socket → Socket)
    (s : Socket) (hw : h.ws = some i) (hs : h.sockets[i]? = some s) :
    (h.updateSocket i f).readyState? = some (f s).readyState := by
  apply readyState?_current _ i (f s) (by rw [updateSocket_ws]; exact hw)
  rw [updateSocket_getElem?]
  simp [hs]

theorem nooverlap_of_fields (h g : Hook) (hp : g.pending = h.pending)
    (hr : g.readyState? = h.readyState?) (hn : NoOverlap h) : NoOverlap g := by
  unfold NoOverlap Hook.live
  rw [hp, hr]
  exact hn

theorem nooverlap_of_pending_nil (h : Hook) (hp : h.pending = []) : NoOverlap h :=
  fun hne => absurd hp hne

theorem nooverlap_connectWebSocket (c : Bool) (h : Hook) (hp : h.pending = []) :
    NoOverlap (connectWebSocket c h) := by
  by_cases hlive : h.readyState? = some .CONNECTING ∨ h.readyState? = some .OPEN
  · rw [connectWebSocket_live c h hlive]; exact nooverlap_of_pending_nil h hp
  · by_cases hc : maxReconnectAttempts ≤ h.reconnectAttempts
    · rw [connectWebSocket_ceiling c h hc]; exact nooverlap_of_pending_nil h hp
    · have hlt : h.reconnectAttempts < maxReconnectAttempts := Nat.lt_of_not_le hc
      cases c with
      | true =>
        rw [connectWebSocket_throws h hlive hlt]
        intro _
        exact discardSocket_not_live h
      | false =>
        rw [connectWebSocket_constructs h hlive hlt]
        exact nooverlap_of_pending_nil _ (by simpa using hp)

theorem not_live_after_closed (h : Hook) (i : Nat) (hn : ¬ h.live) :
    ¬ (h.updateSocket i (fun s => { s with readyState := .CLOSED })).live := by
  by_cases hw : h.ws = some i
  · cases hs : h.sockets[i]? with
    | none =>
      have e : h.updateSocket i (fun s => { s with readyState := .CLOSED }) = h := by
        unfold Hook.updateSocket; rw [hs]
      rw [e]; exact hn
    | some s =>
      unfold Hook.live
      rw [readyState?_updateSocket_current h i _ s hw hs]
      simp
  · unfold Hook.live
    rw [readyState?_updateSocket_other h i _ hw]
    exact hn

theorem nooverlap_step (JSONparse : String → Option JsVal) (a : Action) (h : Hook)
    (ho : Owned h) (hn : NoOverlap h) (hreg : a.regular h = true) :
    NoOverlap (step JSONparse a h) := by
  cases a with
  | fire id c =>
    simp only [step, fireTimer]
    split
    · rename_i hid
      exact nooverlap_connectWebSocket c _ (owned_filter_fired h id ho hid)
    · exact hn
  | send command data =>
    simp only [step, sendControl]
    split
    · split
      · exact nooverlap_of_fields h _ (by simp)
          (readyState?_updateSocket_keep h _ _ (fun _ => rfl)) hn
      · exact hn
    · exact hn
  | unmount =>
    exact nooverlap_of_pending_nil _ (silent_cleanup h ho).1
  | event sock ev =>
    cases hs : h.sockets[sock]? with
    | none =>
      have e : step JSONparse (.event sock ev) h = h := by simp only [step, deliver, hs]
      rw [e]; exact hn
    | some s =>
      cases ev with
      | opened =>
        have hconn : s.readyState = .CONNECTING := by
          simpa [Action.regular, hs] using hreg
        have h1 : NoOverlap (h.updateSocket sock (fun s => { s with readyState := .OPEN })) := by
          intro hp
          rw [updateSocket_pending] at hp
          have hnl := hn hp
          by_cases hw : h.ws = some sock
          · exfalso
            apply hnl
            left
            rw [readyState?_current h sock s hw hs, hconn]
          · unfold Hook.live
            rw [readyState?_updateSocket_other h sock _ hw]
            exact hnl
        simp only [step, deliver, hs]
        split
        · exact nooverlap_of_fields _ _ rfl rfl h1
        · exact h1
      | message text =>
        simp only [step, deliver, hs]
        split
        · rw [onmessage_eq]; exact nooverlap_of_fields h _ rfl rfl hn
        · exact hn
      | errored =>
        simp only [step, deliver, hs, onerror]
        split <;> exact hn
      | closed =>
        have h1 : NoOverlap (h.updateSocket sock (fun s => { s with readyState := .CLOSED })) := by
          intro hp
          rw [updateSocket_pending] at hp
          exact not_live_after_closed h sock (hn hp)
        simp only [step, deliver, hs]
        split
        · rename_i hcb
          have hatt : s.attached = true := by simp [Socket.attached, hcb]
          have hw : h.ws = some sock := ho.2 sock s hs hatt
          have hclosed : (h.updateSocket sock
              (fun s => { s with readyState := .CLOSED })).readyState? = some .CLOSED :=
            readyState?_updateSocket_current h sock _ s hw hs
          have hnl : ¬ (onclose (h.updateSocket sock
              (fun s => { s with readyState := .CLOSED }))).live := by
            have hr : (onclose (h.updateSocket sock
                (fun s => { s with readyState := .CLOSED }))).readyState? = some .CLOSED := by
              rw [← hclosed]
              cases hflag : h.isIntentionallyClosed with
              | true => rw [onclose_intentional _ (by simpa using hflag)]; rfl
              | false => rw [onclose_unintended _ (by simpa using hflag)]; rfl
            unfold Hook.live
            rw [hr]
            simp
          exact fun _ => hnl
        · exact h1

theorem settled_of_not_connected (h : Hook) (hc : h.isConnected = false) : Settled h := by
  intro hconn
  rw [hc] at hconn
  cases hconn

theorem settled_of_fields (h g : Hook) (hc : g.isConnected = h.isConnected)
    (ha : g.reconnectAttempts = h.reconnectAttempts) (hp : g.pending = h.pending)
    (hw : g.ws = h.ws) (hs : g.sockets = h.sockets)
    (hf : g.isIntentionallyClosed = h.isIntentionallyClosed) (hset : Settled h) :
    Settled g := by
  unfold Settled
  rw [hc, ha, hp, hw, hs, hf]
  exact hset

theorem settled_updateSocket (h : Hook) (i : Nat) (f : Socket → Socket)
    (hf : ∀ s : Socket, (f s).onopen = s.onopen ∧ (f s).onmessage = s.onmessage ∧
      (f s).onerror = s.onerror ∧ (f s).onclose = s.onclose)
    (hset : Settled h) : Settled (h.updateSocket i f) := by
  intro hconn
  rw [updateSocket_isConnected] at hconn
  obtain ⟨hzero, hpend, w, s, hw, hs, hcb⟩ := hset hconn
  refine ⟨by rw [updateSocket_reconnectAttempts]; exact hzero,
    by rw [updateSocket_pending]; exact hpend, ?_⟩
  by_cases hiw : i = w
  · subst hiw
    refine ⟨i, f s, by rw [updateSocket_ws]; exact hw, ?_, ?_⟩
    · rw [updateSocket_getElem?]; simp [hs]
    · intro hflag
      rw [updateSocket_isIntentionallyClosed] at hflag
      obtain ⟨h1, h2, h3, h4⟩ := hf s
      rw [h1, h2, h3, h4]
      exact hcb hflag
  · refine ⟨w, s, by rw [updateSocket_ws]; exact hw, ?_, ?_⟩
    · rw [updateSocket_getElem?, if_neg hiw]; exact hs
    · intro hflag
      rw [updateSocket_isIntentionallyClosed] at hflag
      exact hcb hflag

theorem settled_cleanup (h : Hook) (ho : Owned h) (hset : Settled h) :
    Settled (cleanup h) := by
  intro hconn
  rw [cleanup_isConnected] at hconn
  obtain ⟨hzero, _, w, s, hw, hs, _⟩ := hset hconn
  refine ⟨by rw [cleanup_reconnectAttempts]; exact hzero, (silent_cleanup h ho).1,
    w, s.detach.close, by rw [cleanup_ws]; exact hw, ?_, ?_⟩
  · unfold cleanup
    dsimp only
    unfold Hook.discardSocket
    simp only [clearReconnectTimeout_ws, hw]
    rw [updateSocket_getElem?]
    simp [hs]
  · intro hflag
    rw [cleanup_flag] at hflag
    cases hflag

theorem settled_step (JSONparse : String → Option JsVal) (a : Action) (h : Hook)
    (ho : Owned h) (hwh : Whole h) (hn : NoOverlap h) (hset : Settled h)
    (hreg : a.regular h = true) : Settled (step JSONparse a h) := by
  cases a with
  | fire id c =>
    simp only [step, fireTimer]
    split
    · rename_i hid
      cases hconn : h.isConnected with
      | true =>
        have hp := (hset hconn).2.1
        rw [hp] at hid
        cases hid
      | false =>
        exact settled_of_not_connected _ (connectWebSocket_isConnected c _)
    · exact hset
  | send command data =>
    simp only [step, sendControl]
    split
    · split
      · exact settled_updateSocket h _ _ (fun _ => ⟨rfl, rfl, rfl, rfl⟩) hset
      · exact hset
    · exact hset
  | unmount => exact settled_cleanup h ho hset
  | event sock ev =>
    cases hs : h.sockets[sock]? with
    | none =>
      have e : step JSONparse (.event sock ev) h = h := by simp only [step, deliver, hs]
      rw [e]; exact hset
    | some s =>
      cases ev with
      | opened =>
        have hconn : s.readyState = .CONNECTING := by
          simpa [Action.regular, hs] using hreg
        simp only [step, deliver, hs]
        split
        · rename_i hcb
          have hatt : s.attached = true := by simp [Socket.attached, hcb]
          have hw : h.ws = some sock := ho.2 sock s hs hatt
          have hlive : h.live := by
            left
            rw [readyState?_current h sock s hw hs, hconn]
          have hp : h.pending = [] := by
            by_contra hne
            exact hn hne hlive
          intro _
          refine ⟨rfl, by simpa [onopen] using hp, sock, { s with readyState := .OPEN },
            by simpa [onopen] using hw, ?_, fun _ => hwh sock s hs hatt⟩
          show (h.updateSocket sock _).sockets[sock]? = _
          rw [updateSocket_getElem?]
          simp [hs]
        · exact settled_updateSocket h _ _ (fun _ => ⟨rfl, rfl, rfl, rfl⟩) hset
      | message text =>
        simp only [step, deliver, hs]
        split
        · rw [onmessage_eq]; exact settled_of_fields h _ rfl rfl rfl rfl rfl rfl hset
        · exact hset
      | errored =>
        simp only [step, deliver, hs, onerror]
        split <;> exact hset
      | closed =>
        simp only [step, deliver, hs]
        split
        · exact settled_of_not_connected _ (onclose_isConnected _)
        · exact settled_updateSocket h _ _ (fun _ => ⟨rfl, rfl, rfl, rfl⟩) hset

theorem invariants_of_regular (JSONparse : String → Option JsVal) (h : Hook)
    (hr : ReachableRegular JSONparse h) :
    Owned h ∧ Whole h ∧ NoOverlap h ∧ Settled h ∧ TornSilent h := by
  induction hr with
  | mounted c =>
    have ho : Owned Hook.initial := owned_initial
    refine ⟨owned_connectWebSocket c _ ho rfl, ?_, nooverlap_connectWebSocket c _ rfl,
      settled_of_not_connected _ (by rw [mount, connectWebSocket_isConnected]; rfl), ?_⟩
    · exact whole_connectWebSocket c _ (fun j s hj => by simp [Hook.initial] at hj)
    · intro hf
      rw [mount, connectWebSocket_flag] at hf
      cases hf
  | after a g _ hreg ih =>
    obtain ⟨ho, hwh, hn, hset, ht⟩ := ih
    exact ⟨owned_step JSONparse a g ho, whole_step JSONparse a g hwh,
      nooverlap_step JSONparse a g ho hn hreg,
      settled_step JSONparse a g ho hwh hn hset hreg,
      tornSilent_step JSONparse a g ho ht⟩

/-! ## Two concrete histories -/

theorem fiveClosures_outcome (JSONparse : String → Option JsVal) :
    (run JSONparse fiveClosures (mount false Hook.initial)).reconnectAttempts = 5 ∧
    (run JSONparse fiveClosures (mount false Hook.initial)).sockets.length = 5 ∧
    (run JSONparse fiveClosures (mount false Hook.initial)).isConnected = false ∧
    (run JSONparse fiveClosures (mount false Hook.initial)).pending = [5] := by
  simp [run, fiveClosures, step, mount, connectWebSocket, deliver, fireTimer, onclose,
    Hook.initial, Hook.readyState?, maxReconnectAttempts, Hook.updateSocket, Hook.discardSocket, Socket.fresh,
    Socket.detach, Socket.close, Hook.clearReconnectTimeout, Hook.scheduleReconnect, truthyId,
    backoffDelay]


theorem fiveClosures_timers (JSONparse : String → Option JsVal) :
    (run JSONparse fiveClosures (mount false Hook.initial)).timers
      = [3000, 6000, 12000, 24000, 48000] := by
  simp [run, fiveClosures, step, mount, connectWebSocket, deliver, fireTimer, onclose,
    Hook.initial, Hook.readyState?, maxReconnectAttempts, Hook.updateSocket, Hook.discardSocket, Socket.fresh,
    Socket.detach, Socket.close, Hook.clearReconnectTimeout, Hook.scheduleReconnect, truthyId,
    backoffDelay]

theorem threeClosuresThenOpen_timers (JSONparse : String → Option JsVal) :
    (run JSONparse threeClosuresThenOpen (mount false Hook.initial)).timers
      = [3000, 6000, 12000, 3000] := by
  simp [run, threeClosuresThenOpen, step, mount, connectWebSocket, deliver, fireTimer, onclose,
    onopen, Hook.initial, Hook.readyState?, maxReconnectAttempts, Hook.updateSocket,
    Hook.discardSocket, Socket.fresh, Socket.detach, Socket.close, Hook.clearReconnectTimeout,
    Hook.scheduleReconnect, truthyId, backoffDelay]

theorem fourClosures_outcome (JSONparse : String → Option JsVal) :
    (run JSONparse fourClosures (mount false Hook.initial)).sockets[4]? = some Socket.fresh ∧
    (run JSONparse fourClosures (mount false Hook.initial)).isIntentionallyClosed = false ∧
    (run JSONparse fourClosures (mount false Hook.initial)).reconnectAttempts = 4 ∧
    (run JSONparse fourClosures (mount false Hook.initial)).sockets.length = 5 := by
  simp [run, fourClosures, step, mount, connectWebSocket, deliver, fireTimer, onclose,
    Hook.initial, Hook.readyState?, maxReconnectAttempts, Hook.updateSocket,
    Hook.discardSocket, Socket.fresh, Socket.detach, Socket.close,
    Hook.clearReconnectTimeout, Hook.scheduleReconnect, truthyId, backoffDelay]

/-! ## Claims -/

/-- C1: when a close event reaches the close callback of a socket while the
intentional-close flag is false and the reconnect counter is `c`, the counter
becomes `c + 1` and a timer with delay `min (3000 * 2 ^ c) 48000` ms is created,
stored in `reconnectTimeout` and pending; the delay never exceeds 48000; five
unintended closures in a row starting from a fresh mount create timers with
delays 3000, 6000, 12000, 24000, 48000 in that order. -/
theorem C1_backoff_schedule (JSONparse : String → Option JsVal) (h : Hook) (i : Nat) (s : Socket)
    (hs : h.sockets[i]? = some s) (hcb : s.onclose = true)
    (hflag : h.isIntentionallyClosed = false) :
    (deliver JSONparse i .closed h).reconnectAttempts = h.reconnectAttempts + 1 ∧
    (deliver JSONparse i .closed h).timers
      = h.timers ++ [min (3000 * 2 ^ h.reconnectAttempts) 48000] ∧
    (deliver JSONparse i .closed h).reconnectTimeout = some (h.timers.length + 1) ∧
    (h.timers.length + 1) ∈ (deliver JSONparse i .closed h).pending ∧
    min (3000 * 2 ^ h.reconnectAttempts) 48000 ≤ 48000 ∧
    (∀ n : Nat, backoffDelay n ≤ 48000) ∧
    (run JSONparse fiveClosures (mount false Hook.initial)).timers
      = [3000, 6000, 12000, 24000, 48000] := by
  rw [deliver_closed JSONparse h i s hs hcb, onclose_unintended _ (by simpa using hflag)]
  exact ⟨by simp, by simp, by simp, by simp, Nat.min_le_right _ _, backoffDelay_le,
    fiveClosures_timers JSONparse⟩

/-- Witness for C1: the first closure after a fresh mount. -/
theorem C1_backoff_schedule_witness :
    (deliver (fun _ => none) 0 .closed (mount false Hook.initial)).reconnectAttempts = 0 + 1 ∧
    (deliver (fun _ => none) 0 .closed (mount false Hook.initial)).timers = [3000] :=
  have key := C1_backoff_schedule (fun _ => none) (mount false Hook.initial) 0 Socket.fresh
    rfl rfl rfl
  ⟨key.1, key.2.1⟩

/-- C2: an open event that reaches the open callback sets the reconnect
counter to 0 whatever it was, so a close event that follows it on the same
socket creates a timer of 3000 ms; after three unintended closures, an open
and one more closure the delays created are 3000, 6000, 12000, 3000. -/
theorem C2_open_resets_counter (JSONparse : String → Option JsVal) (h : Hook) (i : Nat)
    (s : Socket) (hs : h.sockets[i]? = some s) (hopen : s.onopen = true)
    (hclose : s.onclose = true) :
    (deliver JSONparse i .opened h).reconnectAttempts = 0 ∧
    (deliver JSONparse i .closed (deliver JSONparse i .opened h)).timers
      = h.timers ++ [3000] ∧
    (deliver JSONparse i .closed (deliver JSONparse i .opened h)).reconnectAttempts = 1 ∧
    (run JSONparse threeClosuresThenOpen (mount false Hook.initial)).timers
      = [3000, 6000, 12000, 3000] := by
  have h1 : deliver JSONparse i .opened h
      = onopen (h.updateSocket i (fun s => { s with readyState := .OPEN })) :=
    deliver_opened JSONparse h i s hs hopen
  have hs1 : (deliver JSONparse i .opened h).sockets[i]?
      = some { s with readyState := .OPEN } := by
    rw [h1]
    show (h.updateSocket i _).sockets[i]? = _
    rw [updateSocket_getElem?]; simp [hs]
  have h2 := deliver_closed JSONparse (deliver JSONparse i .opened h) i _ hs1 hclose
  have hflag : ((deliver JSONparse i .opened h).updateSocket i
      (fun s => { s with readyState := .CLOSED })).isIntentionallyClosed = false := by
    rw [h1]; simp [onopen]
  rw [h2, onclose_unintended _ hflag]
  refine ⟨by rw [h1]; rfl, ?_, ?_, threeClosuresThenOpen_timers JSONparse⟩
  · rw [h1]; simp [onopen]
  · rw [h1]; simp [onopen]

/-- Witness for C2: the counter is 3 when the fourth socket opens. -/
theorem C2_open_resets_counter_witness :
    (deliver (fun _ => none) 0 .opened
      { (mount false Hook.initial) with reconnectAttempts := 3 }).reconnectAttempts = 0 :=
  (C2_open_resets_counter (fun _ => none)
    { (mount false Hook.initial) with reconnectAttempts := 3 } 0 Socket.fresh rfl rfl rfl).1

/-- C3: a connect request made while the reconnect counter is at least 5
returns the state it was given, so it creates no socket; from such a state no
sequence of timer expiries, message and error events, sends and unmounts
creates a socket, lowers the counter or changes the connected indicator; and
five unintended closures in a row after a fresh mount lead to such a state,
with five sockets created, the counter at 5 and the indicator false. -/
theorem C3_ceiling_stops_connects (JSONparse : String → Option JsVal) (c : Bool) (h : Hook)
    (later : List Action) (hc : maxReconnectAttempts ≤ h.reconnectAttempts)
    (hq : ∀ a ∈ later, a.quiet = true) :
    connectWebSocket c h = h ∧
    (run JSONparse later h).sockets.length = h.sockets.length ∧
    (run JSONparse later h).reconnectAttempts = h.reconnectAttempts ∧
    (run JSONparse later h).isConnected = h.isConnected ∧
    (run JSONparse fiveClosures (mount false Hook.initial)).reconnectAttempts = 5 ∧
    (run JSONparse fiveClosures (mount false Hook.initial)).sockets.length = 5 ∧
    (run JSONparse fiveClosures (mount false Hook.initial)).isConnected = false := by
  have hrun := run_quiet_ceiling JSONparse later h hq hc
  have hfive := fiveClosures_outcome JSONparse
  exact ⟨connectWebSocket_ceiling c h hc, hrun.2.1, hrun.1, hrun.2.2, hfive.1, hfive.2.1,
    hfive.2.2.1⟩

/-- Witness for C3: after the five closures the fifth timer expires, a control
is sent and a stray timer id expires; there are still five sockets. -/
theorem C3_ceiling_stops_connects_witness :
    (run (fun _ => none)
      [.fire 5 false, .send (.str "stop") [], .fire 5 true]
      (run (fun _ => none) fiveClosures (mount false Hook.initial))).sockets.length
      = (run (fun _ => none) fiveClosures (mount false Hook.initial)).sockets.length :=
  (C3_ceiling_stops_connects (fun _ => none) false
    (run (fun _ => none) fiveClosures (mount false Hook.initial))
    [.fire 5 false, .send (.str "stop") [], .fire 5 true]
    (by rw [(fiveClosures_outcome (fun _ => none)).1]; decide)
    (by decide)).2.1

/-- C4: while the referenced socket is connecting or open, `connectWebSocket`
returns the state it was given, whether or not the constructor would throw;
hence any number of calls in a row leave the state as it was. -/
theorem C4_connect_idempotent_while_live (h : Hook) (calls : List Bool)
    (hlive : h.readyState? = some .CONNECTING ∨ h.readyState? = some .OPEN) :
    calls.foldl (fun s c => connectWebSocket c s) h = h := by
  induction calls with
  | nil => rfl
  | cons c rest ih =>
    rw [List.foldl_cons, connectWebSocket_live c h hlive]
    exact ih

/-- Witness for C4: three calls right after a mount, the socket still connecting. -/
theorem C4_connect_idempotent_while_live_witness :
    [false, true, false].foldl (fun s c => connectWebSocket c s) (mount false Hook.initial)
      = mount false Hook.initial :=
  C4_connect_idempotent_while_live (mount false Hook.initial) [false, true, false]
    (Or.inl rfl)

/-- C5: in every state reached from a mount by timer expiries, socket events,
sends and unmounts, the cleanup leaves no pending timer and no socket with a
callback assigned; from there, whatever sequence of socket events, timer
expiries, sends and further cleanups follows, no timer is ever pending (so the
expiry of any timer id does nothing), no timer is created and the number of
sockets constructed stays what it was before the cleanup. -/
theorem C5_teardown_is_final (JSONparse : String → Option JsVal) (h : Hook)
    (later : List Action) (hr : Reachable JSONparse h) :
    (cleanup h).pending = [] ∧
    (∀ s ∈ (cleanup h).sockets, s.attached = false) ∧
    (run JSONparse later (cleanup h)).pending = [] ∧
    (run JSONparse later (cleanup h)).timers = h.timers ∧
    (run JSONparse later (cleanup h)).sockets.length = h.sockets.length ∧
    (∀ (id : Nat) (c : Bool),
      fireTimer c id (run JSONparse later (cleanup h)) = run JSONparse later (cleanup h)) := by
  have hsilent := silent_cleanup h (owned_of_reachable JSONparse h hr)
  have hrun := silent_run JSONparse later (cleanup h) hsilent
  refine ⟨hsilent.1, hsilent.2, hrun.1.1, ?_, ?_, ?_⟩
  · rw [hrun.2.2, cleanup_timers]
  · rw [hrun.2.1, cleanup_length]
  · intro id c
    unfold fireTimer
    rw [if_neg]
    rw [hrun.1.1]
    exact List.not_mem_nil id

/-- Witness for C5: the cleanup runs after five closures, while the 48000 ms
timer is pending; that timer then expires and the last socket reports a close. -/
theorem C5_teardown_is_final_witness :
    (run (fun _ => none) [.fire 5 false, .event 4 .closed, .fire 5 false]
      (cleanup (run (fun _ => none) fiveClosures (mount false Hook.initial)))).sockets.length
      = (run (fun _ => none) fiveClosures (mount false Hook.initial)).sockets.length :=
  (C5_teardown_is_final (fun _ => none)
    (run (fun _ => none) fiveClosures (mount false Hook.initial))
    [.fire 5 false, .event 4 .closed, .fire 5 false]
    ⟨false, fiveClosures, rfl⟩).2.2.2.2.1

/-- C6: with the intentional-close flag true, the close callback changes the
connected indicator to false and nothing else; a close event dispatched by any
socket then creates no timer and leaves the pending timers, `reconnectTimeout`,
the counter, the flag, the snapshot and the socket reference as they were. -/
theorem C6_intentional_close_frame (JSONparse : String → Option JsVal) (h : Hook) (i : Nat)
    (hflag : h.isIntentionallyClosed = true) :
    onclose h = { h with isConnected := false } ∧
    (deliver JSONparse i .closed h).timers = h.timers ∧
    (deliver JSONparse i .closed h).pending = h.pending ∧
    (deliver JSONparse i .closed h).reconnectTimeout = h.reconnectTimeout ∧
    (deliver JSONparse i .closed h).reconnectAttempts = h.reconnectAttempts ∧
    (deliver JSONparse i .closed h).isIntentionallyClosed = true ∧
    (deliver JSONparse i .closed h).telemetry = h.telemetry ∧
    (deliver JSONparse i .closed h).ws = h.ws := by
  refine ⟨onclose_intentional h hflag, ?_⟩
  simp only [deliver]
  split
  · simp [hflag]
  · split
    · rw [onclose_intentional _ (by simpa using hflag)]
      simp [hflag]
    · simp [hflag]

/-- Witness for C6: the socket of a fresh mount closes after the flag was set. -/
theorem C6_intentional_close_frame_witness :
    onclose { (mount false Hook.initial) with isIntentionallyClosed := true, isConnected := true }
      = { (mount false Hook.initial) with isIntentionallyClosed := true, isConnected := false } :=
  (C6_intentional_close_frame (fun _ => none)
    { (mount false Hook.initial) with isIntentionallyClosed := true, isConnected := true } 0
    rfl).1

/-- C7: when `JSON.parse` throws on the frame text, or returns a value that is
not an object whose `type` property is the string "telemetry" (`null`,
a number, a string, an array, an object with another or no `type`), the guarded
block of the message callback either throws, which the callback catches, or
returns the state untouched; either way the callback returns the state it was
given, and so does the dispatch of that message by any socket: snapshot,
connected indicator, counter, timers and sockets are unchanged. -/
theorem C7_bad_frame_ignored (JSONparse : String → Option JsVal) (text : String) (h : Hook)
    (i : Nat)
    (hbad : JSONparse text = none ∨
      ∃ v, JSONparse text = some v ∧
        ∀ fields, v = .obj fields → fields.lookup "type" ≠ some (.str "telemetry")) :
    (onmessageTry JSONparse text h = none ∨ onmessageTry JSONparse text h = some h) ∧
    onmessage JSONparse text h = h ∧
    deliver JSONparse i (.message text) h = h := by
  have htry : onmessageTry JSONparse text h = none ∨ onmessageTry JSONparse text h = some h := by
    rcases hbad with hnone | ⟨v, hv, hother⟩
    · left; simp [onmessageTry, hnone]
    · exact onmessageTry_other JSONparse text h v hv hother
  have hcb : onmessage JSONparse text h = h := by
    unfold onmessage
    rcases htry with hn | hsome
    · rw [hn]
    · rw [hsome]
  refine ⟨htry, hcb, ?_⟩
  simp only [deliver]
  split
  · rfl
  · split
    · exact hcb
    · rfl

/-- Witness for C7: a frame whose text parses to `null`. -/
theorem C7_bad_frame_ignored_witness :
    onmessage (fun _ => some JsVal.null) "null" (mount false Hook.initial)
      = mount false Hook.initial :=
  (C7_bad_frame_ignored (fun _ => some JsVal.null) "null" (mount false Hook.initial) 0
    (Or.inr ⟨JsVal.null, rfl, fun _ hv => nomatch hv⟩)).2.1

/-- C8: when the frame text parses to an object whose `type` property is the
string "telemetry", the message callback returns the state with the snapshot
set to that object's `data` property (`undefined` when it has none) and all
else unchanged; the new snapshot is the same whatever the prior snapshot was;
and after a frame carrying a full snapshot, a frame carrying `{"speed":42}`
leaves a snapshot that is exactly the object with the single property
`speed = 42`. -/
theorem C8_snapshot_replaced (JSONparse : String → Option JsVal) (text : String) (h : Hook)
    (fields : List (String × JsVal)) (hparse : JSONparse text = some (.obj fields))
    (htype : fields.lookup "type" = some (.str "telemetry")) :
    onmessage JSONparse text h
      = { h with telemetry := (fields.lookup "data").getD .undefined } ∧
    (∀ prior : JsVal, (onmessage JSONparse text { h with telemetry := prior }).telemetry
      = (fields.lookup "data").getD .undefined) ∧
    (∀ (first : String) (full : JsVal), JSONparse first = some (telemetryFrame full) →
      fields.lookup "data" = some (.obj [("speed", .num 42)]) →
      (onmessage JSONparse text (onmessage JSONparse first h)).telemetry
        = .obj [("speed", .num 42)]) := by
  have key : ∀ g : Hook, onmessage JSONparse text g
      = { g with telemetry := (fields.lookup "data").getD .undefined } := by
    intro g
    unfold onmessage
    rw [onmessageTry_telemetry JSONparse text g fields hparse htype]
  refine ⟨key h, fun prior => by rw [key], fun first full _ hdata => ?_⟩
  rw [key, hdata]
  rfl

/-- Witness for C8: a full snapshot is in place when the frame
`{"type":"telemetry","data":{"speed":42}}` arrives. -/
theorem C8_snapshot_replaced_witness :
    (onmessage (fun _ => some (telemetryFrame (.obj [("speed", .num 42)])))
      "\x7b\"type\":\"telemetry\",\"data\":\x7b\"speed\":42\x7d\x7d"
      { (mount false Hook.initial) with
          telemetry := .obj [("speed", .num 7), ("heading", .num 90), ("x_position", .num 1)] }).telemetry
      = .obj [("speed", .num 42)] :=
  congrArg Hook.telemetry
    (C8_snapshot_replaced (fun _ => some (telemetryFrame (.obj [("speed", .num 42)])))
      "\x7b\"type\":\"telemetry\",\"data\":\x7b\"speed\":42\x7d\x7d"
      { (mount false Hook.initial) with
          telemetry := .obj [("speed", .num 7), ("heading", .num 90), ("x_position", .num 1)] }
      [("type", .str "telemetry"), ("data", .obj [("speed", .num 42)])] rfl rfl).1

/-- C9: when `ws.current` is `null` or the referenced socket is not open,
`sendControl` returns the state it was given for every command and data: no
socket has a frame added to what it sent, nothing is stored for later and the
call completes normally. -/
theorem C9_send_while_not_open (command : JsVal) (data : JsObj) (h : Hook)
    (hnot : h.ws = none ∨ h.readyState? ≠ some .OPEN) :
    sendControl command data h = h := by
  unfold sendControl
  rcases hnot with hnone | hne
  · rw [hnone]
  · split
    · rw [if_neg hne]
    · rfl

/-- Witness for C9: a send right after the mount, the socket still connecting. -/
theorem C9_send_while_not_open_witness :
    sendControl (.str "manual") [("direction", .str "forward"), ("speed", .num 150)]
      (mount false Hook.initial) = mount false Hook.initial :=
  C9_send_while_not_open (.str "manual") [("direction", .str "forward"), ("speed", .num 150)]
    (mount false Hook.initial) (Or.inr (by decide))

/-- C11 as stated fails: the close event that raises the counter from 4 to 5,
the fifth closure in a row after a fresh mount, does schedule a timer, the one
of 48000 ms, and that timer is pending afterwards. -/
theorem C11_timer_scheduled_at_ceiling :
    (run (fun _ => none) fourClosures (mount false Hook.initial)).reconnectAttempts = 4 ∧
    (run (fun _ => none) fourClosures (mount false Hook.initial)).timers
      = [3000, 6000, 12000, 24000] ∧
    (deliver (fun _ => none) 4 .closed
      (run (fun _ => none) fourClosures (mount false Hook.initial))).reconnectAttempts
      = maxReconnectAttempts ∧
    (deliver (fun _ => none) 4 .closed
      (run (fun _ => none) fourClosures (mount false Hook.initial))).timers
      = [3000, 6000, 12000, 24000, 48000] ∧
    (deliver (fun _ => none) 4 .closed
      (run (fun _ => none) fourClosures (mount false Hook.initial))).pending = [5] := by
  simp [run, fourClosures, step, mount, connectWebSocket, deliver, fireTimer, onclose,
    Hook.initial, Hook.readyState?, maxReconnectAttempts, Hook.updateSocket,
    Hook.discardSocket, Socket.fresh, Socket.detach, Socket.close,
    Hook.clearReconnectTimeout, Hook.scheduleReconnect, truthyId, backoffDelay]

/-- C11 amended: the close callback schedules a timer after every unintended
closure, also when the incremented counter reaches or passes 5; the ceiling
takes effect when that timer expires: `connectWebSocket` then returns at its
guard, so no socket is constructed and no further timer is created. -/
theorem C11_ceiling_enforced_at_expiry (JSONparse : String → Option JsVal) (c : Bool)
    (h : Hook) (i : Nat) (s : Socket) (hs : h.sockets[i]? = some s) (hcb : s.onclose = true)
    (hflag : h.isIntentionallyClosed = false)
    (hc : maxReconnectAttempts ≤ h.reconnectAttempts + 1) :
    (deliver JSONparse i .closed h).timers
      = h.timers ++ [min (3000 * 2 ^ h.reconnectAttempts) 48000] ∧
    (h.timers.length + 1) ∈ (deliver JSONparse i .closed h).pending ∧
    (fireTimer c (h.timers.length + 1) (deliver JSONparse i .closed h)).sockets.length
      = h.sockets.length ∧
    (fireTimer c (h.timers.length + 1) (deliver JSONparse i .closed h)).timers
      = (deliver JSONparse i .closed h).timers ∧
    (h.timers.length + 1) ∉
      (fireTimer c (h.timers.length + 1) (deliver JSONparse i .closed h)).pending := by
  have hd := deliver_closed JSONparse h i s hs hcb
  have hu := onclose_unintended (h.updateSocket i (fun s => { s with readyState := .CLOSED }))
    (by simpa using hflag)
  have hmem : (h.timers.length + 1) ∈ (deliver JSONparse i .closed h).pending := by
    rw [hd, hu]; simp
  have hcount : maxReconnectAttempts ≤ (deliver JSONparse i .closed h).reconnectAttempts := by
    rw [hd, hu]; simpa using hc
  have hfire : fireTimer c (h.timers.length + 1) (deliver JSONparse i .closed h)
      = { (deliver JSONparse i .closed h) with
            pending := (deliver JSONparse i .closed h).pending.filter
              (fun j => j != h.timers.length + 1) } := by
    unfold fireTimer
    rw [if_pos hmem]
    exact connectWebSocket_ceiling c _ hcount
  refine ⟨by rw [hd, hu]; simp, hmem, ?_, by rw [hfire], ?_⟩
  · rw [hfire, hd, hu]; simp
  · rw [hfire]
    simp [List.mem_filter]

/-- Witness for C11 amended: the fifth closure after a fresh mount, then the
expiry of its timer. -/
theorem C11_ceiling_enforced_at_expiry_witness :
    (fireTimer false
      ((run (fun _ => none) fourClosures (mount false Hook.initial)).timers.length + 1)
      (deliver (fun _ => none) 4 .closed
        (run (fun _ => none) fourClosures (mount false Hook.initial)))).sockets.length
      = (run (fun _ => none) fourClosures (mount false Hook.initial)).sockets.length :=
  (C11_ceiling_enforced_at_expiry (fun _ => none) false
    (run (fun _ => none) fourClosures (mount false Hook.initial)) 4 Socket.fresh
    (fourClosures_outcome (fun _ => none)).1 rfl
    (fourClosures_outcome (fun _ => none)).2.1
    (by rw [(fourClosures_outcome (fun _ => none)).2.2.1]; decide)).2.2.1

/-- C12 as stated fails: after a mount whose constructor throws, the 5000 ms
retry constructs a socket, and the closure of that socket schedules 6000 ms;
the same closure after a mount whose constructor succeeds schedules 3000 ms. -/
theorem C12_failure_shifts_backoff :
    (run (fun _ => none) [.fire 1 false, .event 0 .closed] (mount true Hook.initial)).timers
      = [5000, 6000] ∧
    (run (fun _ => none) [.event 0 .closed] (mount false Hook.initial)).timers = [3000] := by
  simp [run, step, mount, connectWebSocket, deliver, fireTimer, onclose,
    Hook.initial, Hook.readyState?, maxReconnectAttempts, Hook.updateSocket,
    Hook.discardSocket, Socket.fresh, Socket.detach, Socket.close,
    Hook.clearReconnectTimeout, Hook.scheduleReconnect, truthyId, backoffDelay]

/-- C12 amended: a construction failure does take a slot of the backoff table.
When `connectWebSocket` gets as far as the constructor at counter `c` and the
constructor throws, the counter becomes `c + 1`; the 5000 ms retry then
constructs a socket, and the unintended closure of that socket schedules
`min (3000 * 2 ^ (c + 1)) 48000` ms, while the closure of a socket constructed
without the failure schedules `min (3000 * 2 ^ c) 48000` ms. -/
theorem C12_construction_failure_takes_slot (JSONparse : String → Option JsVal) (h : Hook)
    (hnl : ¬ (h.readyState? = some .CONNECTING ∨ h.readyState? = some .OPEN))
    (hc : h.reconnectAttempts + 1 < maxReconnectAttempts)
    (hflag : h.isIntentionallyClosed = false) :
    (connectWebSocket true h).reconnectAttempts = h.reconnectAttempts + 1 ∧
    (deliver JSONparse h.sockets.length .closed
      (fireTimer false (h.timers.length + 1) (connectWebSocket true h))).timers
      = h.timers ++ [5000, min (3000 * 2 ^ (h.reconnectAttempts + 1)) 48000] ∧
    (deliver JSONparse h.sockets.length .closed (connectWebSocket false h)).timers
      = h.timers ++ [min (3000 * 2 ^ h.reconnectAttempts) 48000] := by
  have hc0 : h.reconnectAttempts < maxReconnectAttempts := Nat.lt_of_succ_lt hc
  have e1 := connectWebSocket_throws h hnl hc0
  have hmem : (h.timers.length + 1) ∈ (connectWebSocket true h).pending := by
    rw [e1]; simp
  have e2 : fireTimer false (h.timers.length + 1) (connectWebSocket true h)
      = connectWebSocket false
          { (connectWebSocket true h) with
              pending := (connectWebSocket true h).pending.filter
                (fun j => j != h.timers.length + 1) } := by
    unfold fireTimer
    rw [if_pos hmem]
  have hnl1 : ¬ (({ (connectWebSocket true h) with
        pending := (connectWebSocket true h).pending.filter
          (fun j => j != h.timers.length + 1) } : Hook).readyState? = some .CONNECTING ∨
      ({ (connectWebSocket true h) with
        pending := (connectWebSocket true h).pending.filter
          (fun j => j != h.timers.length + 1) } : Hook).readyState? = some .OPEN) := by
    have hd := discardSocket_not_live h
    rw [e1]
    exact hd
  have hc1 : ({ (connectWebSocket true h) with
        pending := (connectWebSocket true h).pending.filter
          (fun j => j != h.timers.length + 1) } : Hook).reconnectAttempts
      < maxReconnectAttempts := by
    rw [e1]; exact hc
  have e3 := connectWebSocket_constructs _ hnl1 hc1
  refine ⟨by rw [e1], ?_, ?_⟩
  · rw [e2, e3, deliver_closed_fresh JSONparse _ _ _ (by rw [e1]; simp)
      (by rw [e1]; simpa using hflag)]
    rw [e1]
    simp
  · rw [connectWebSocket_constructs h hnl hc0,
      deliver_closed_fresh JSONparse _ _ _ (by simp) (by simpa using hflag)]
    simp

/-- Witness for C12 amended: the constructor throws at the mount. -/
theorem C12_construction_failure_takes_slot_witness :
    (deliver (fun _ => none) Hook.initial.sockets.length .closed
      (fireTimer false (Hook.initial.timers.length + 1)
        (connectWebSocket true Hook.initial))).timers
      = Hook.initial.timers ++ [5000, min (3000 * 2 ^ (Hook.initial.reconnectAttempts + 1)) 48000] :=
  (C12_construction_failure_takes_slot (fun _ => none) Hook.initial (by decide) (by decide)
    rfl).2.1

/-- C13: when `connectWebSocket` gets as far as the constructor and the
constructor throws, the call returns a state (the `catch` handles the
exception) in which a timer of exactly 5000 ms has been created, is named by
`reconnectTimeout` and is pending, whatever the counter was; the connected
indicator, the snapshot and the socket reference are unchanged and no socket
has been constructed. -/
theorem C13_construction_failure_retry (h : Hook)
    (hnl : ¬ (h.readyState? = some .CONNECTING ∨ h.readyState? = some .OPEN))
    (hc : h.reconnectAttempts < maxReconnectAttempts) :
    (connectWebSocket true h).timers = h.timers ++ [5000] ∧
    (connectWebSocket true h).reconnectTimeout = some (h.timers.length + 1) ∧
    (h.timers.length + 1) ∈ (connectWebSocket true h).pending ∧
    (connectWebSocket true h).isConnected = h.isConnected ∧
    (connectWebSocket true h).telemetry = h.telemetry ∧
    (connectWebSocket true h).ws = h.ws ∧
    (connectWebSocket true h).sockets.length = h.sockets.length := by
  rw [connectWebSocket_throws h hnl hc]
  simp

/-- Witness for C13: the constructor throws when the second retry timer
expires, the counter being 2. -/
theorem C13_construction_failure_retry_witness :
    (connectWebSocket true
      { Hook.initial with reconnectAttempts := 2, timers := [3000, 6000] }).timers
      = [3000, 6000] ++ [5000] :=
  (C13_construction_failure_retry
    { Hook.initial with reconnectAttempts := 2, timers := [3000, 6000] }
    (by decide) (by decide)).1

/-- C14: in every state reached from a mount by timer expiries, socket events
(with or without the transport discipline), construction failures, sends and
unmounts, at most one timer is pending, and a pending timer is the one
`reconnectTimeout` names. -/
theorem C14_single_pending_timer (JSONparse : String → Option JsVal) (h : Hook)
    (hr : Reachable JSONparse h) :
    h.pending.length ≤ 1 ∧ ∀ id ∈ h.pending, h.reconnectTimeout = some id := by
  have ho := owned_of_reachable JSONparse h hr
  exact ⟨pending_le_one_of_reachable JSONparse h hr, fun id hid => (ho.1 id hid).1⟩

/-- Witness for C14: the state after five closures, where timer 5 is pending. -/
theorem C14_single_pending_timer_witness :
    (run (fun _ => none) fiveClosures (mount false Hook.initial)).pending.length ≤ 1 :=
  (C14_single_pending_timer (fun _ => none)
    (run (fun _ => none) fiveClosures (mount false Hook.initial))
    ⟨false, fiveClosures, rfl⟩).1

/-- C16: in every reachable state `ws.current` references the socket
constructed last, and every socket constructed before it has its four
callback slots empty; an event dispatched by such a superseded socket leaves
the connected indicator, the snapshot, the counter, the flag, the socket
reference and the timers (created, pending, referenced) unchanged. -/
theorem C16_superseded_sockets_are_mute (JSONparse : String → Option JsVal) (h : Hook)
    (i : Nat) (s : Socket) (ev : SocketEvent) (hr : Reachable JSONparse h)
    (hs : h.sockets[i]? = some s) (hold : i + 1 < h.sockets.length) :
    Latest h ∧
    h.ws = some (h.sockets.length - 1) ∧
    (s.onopen = false ∧ s.onmessage = false ∧ s.onerror = false ∧ s.onclose = false) ∧
    (deliver JSONparse i ev h).isConnected = h.isConnected ∧
    (deliver JSONparse i ev h).telemetry = h.telemetry ∧
    (deliver JSONparse i ev h).reconnectAttempts = h.reconnectAttempts ∧
    (deliver JSONparse i ev h).isIntentionallyClosed = h.isIntentionallyClosed ∧
    (deliver JSONparse i ev h).ws = h.ws ∧
    (deliver JSONparse i ev h).timers = h.timers ∧
    (deliver JSONparse i ev h).pending = h.pending ∧
    (deliver JSONparse i ev h).reconnectTimeout = h.reconnectTimeout := by
  have ho := owned_of_reachable JSONparse h hr
  have hlat := latest_of_reachable JSONparse h hr
  have hws : h.ws = some (h.sockets.length - 1) := by
    unfold Latest at hlat
    cases hw : h.ws with
    | none => rw [hw] at hlat; omega
    | some j =>
      rw [hw] at hlat
      simp only at hlat
      congr 1
      omega
  have hna : s.attached = false := by
    cases hatt : s.attached with
    | false => rfl
    | true =>
      have hi := ho.2 i s hs hatt
      rw [hws] at hi
      have := Option.some.inj hi
      omega
  have hcb := callbacks_of_not_attached s hna
  refine ⟨hlat, hws, hcb, ?_⟩
  cases ev with
  | opened => simp [deliver, hs, hcb.1]
  | message text => simp [deliver, hs, hcb.2.1]
  | errored => simp [deliver, hs, hcb.2.2.1]
  | closed => simp [deliver, hs, hcb.2.2.2]

/-- Witness for C16: the first socket dispatches a close event after five
closures, when the fifth socket is the referenced one. -/
theorem C16_superseded_sockets_are_mute_witness :
    (deliver (fun _ => none) 0 .closed
      (run (fun _ => none) fiveClosures (mount false Hook.initial))).reconnectAttempts
      = (run (fun _ => none) fiveClosures (mount false Hook.initial)).reconnectAttempts :=
  (C16_superseded_sockets_are_mute (fun _ => none)
    (run (fun _ => none) fiveClosures (mount false Hook.initial)) 0
    { Socket.fresh.detach with readyState := .CLOSED } .closed
    ⟨false, fiveClosures, rfl⟩
    (by simp [run, fiveClosures, step, mount, connectWebSocket, deliver, fireTimer, onclose,
      Hook.initial, Hook.readyState?, maxReconnectAttempts, Hook.updateSocket,
      Hook.discardSocket, Socket.fresh, Socket.detach, Socket.close,
      Hook.clearReconnectTimeout, Hook.scheduleReconnect, truthyId, backoffDelay])
    (by rw [(fiveClosures_outcome (fun _ => none)).2.1]; decide)).2.2.2.2.2.1

/-- C15: in every state reached from a mount by timer expiries, construction
failures, sends, unmounts and socket events, no socket dispatching anything
after its close event, the reconnect counter is at most
`maxReconnectAttempts`, which is 5. -/
theorem C15_counter_bounded (JSONparse : String → Option JsVal) (h : Hook)
    (hr : ReachableOrderly JSONparse h) :
    h.reconnectAttempts ≤ maxReconnectAttempts ∧ maxReconnectAttempts = 5 :=
  ⟨(owned_capped_of_orderly JSONparse h hr).2.1, rfl⟩

/-- Witness for C15: the constructor throws at the mount and the retry timer
expires. -/
theorem C15_counter_bounded_witness :
    (step (fun _ => none) (.fire 1 false) (mount true Hook.initial)).reconnectAttempts
      ≤ maxReconnectAttempts :=
  (C15_counter_bounded (fun _ => none)
    (step (fun _ => none) (.fire 1 false) (mount true Hook.initial))
    (ReachableOrderly.after (.fire 1 false) (mount true Hook.initial)
      (ReachableOrderly.mounted true) rfl)).1

/-- C17 as stated fails: a hook whose socket has opened reads connected; the
cleanup leaves the indicator true, and so does the close event the socket
dispatches afterwards, its close callback having been removed. -/
theorem C17_teardown_keeps_indicator :
    (deliver (fun _ => none) 0 .opened (mount false Hook.initial)).isConnected = true ∧
    (cleanup (deliver (fun _ => none) 0 .opened (mount false Hook.initial))).isConnected
      = true ∧
    (deliver (fun _ => none) 0 .closed
      (cleanup (deliver (fun _ => none) 0 .opened (mount false Hook.initial)))).isConnected
      = true := by
  simp [mount, connectWebSocket, deliver, onopen, cleanup, Hook.initial, Hook.readyState?,
    maxReconnectAttempts, Hook.updateSocket, Hook.discardSocket, Socket.fresh, Socket.detach,
    Socket.close, Hook.clearReconnectTimeout, truthyId]

/-- C17 amended: a close event dispatched by a socket whose close callback is
assigned sets the connected indicator to false.  The cleanup empties the
callback slots before it closes the socket, so it leaves the indicator as it
was, and in a reachable state nothing that happens after the cleanup changes
it. -/
theorem C17_indicator_follows_handled_closures (JSONparse : String → Option JsVal) (h : Hook)
    (later : List Action) (hr : Reachable JSONparse h) :
    (∀ (i : Nat) (s : Socket), h.sockets[i]? = some s → s.onclose = true →
      (deliver JSONparse i .closed h).isConnected = false) ∧
    (cleanup h).isConnected = h.isConnected ∧
    (run JSONparse later (cleanup h)).isConnected = h.isConnected := by
  refine ⟨fun i s hs hcb => ?_, cleanup_isConnected h, ?_⟩
  · rw [deliver_closed JSONparse h i s hs hcb]
    exact onclose_isConnected _
  · rw [silent_run_isConnected JSONparse later (cleanup h)
      (silent_cleanup h (owned_of_reachable JSONparse h hr))]
    exact cleanup_isConnected h

/-- Witness for C17 amended: the cleanup of a connected hook, then the close
event of its socket. -/
theorem C17_indicator_follows_handled_closures_witness :
    (run (fun _ => none) [.event 0 .closed]
      (cleanup (run (fun _ => none) [.event 0 .opened] (mount false Hook.initial)))).isConnected
      = (run (fun _ => none) [.event 0 .opened] (mount false Hook.initial)).isConnected :=
  (C17_indicator_follows_handled_closures (fun _ => none)
    (run (fun _ => none) [.event 0 .opened] (mount false Hook.initial)) [.event 0 .closed]
    ⟨false, [.event 0 .opened], rfl⟩).2.2

/-- C19: the error callback returns the state it was given, and so does the
dispatch of an error event by any socket; open, message and error events
create no timer and leave the pending timers and `reconnectTimeout` alone; an
error event followed by the unintended close event of the same socket creates
exactly one timer, the one the close callback schedules. -/
theorem C19_error_event_frame (JSONparse : String → Option JsVal) (h : Hook) (i : Nat)
    (s : Socket) (hs : h.sockets[i]? = some s) (hcb : s.onclose = true)
    (hflag : h.isIntentionallyClosed = false) :
    onerror h = h ∧
    (∀ j : Nat, deliver JSONparse j .errored h = h) ∧
    (∀ (j : Nat) (ev : SocketEvent), (ev = .opened ∨ ev = .errored ∨ ∃ t, ev = .message t) →
      (deliver JSONparse j ev h).timers = h.timers ∧
      (deliver JSONparse j ev h).pending = h.pending ∧
      (deliver JSONparse j ev h).reconnectTimeout = h.reconnectTimeout) ∧
    (deliver JSONparse i .closed (deliver JSONparse i .errored h)).timers
      = h.timers ++ [min (3000 * 2 ^ h.reconnectAttempts) 48000] := by
  have herr : ∀ j : Nat, deliver JSONparse j .errored h = h := by
    intro j
    simp only [deliver, onerror]
    split
    · rfl
    · split <;> rfl
  refine ⟨rfl, herr, ?_, ?_⟩
  · intro j ev hev
    rcases hev with rfl | rfl | ⟨t, rfl⟩
    · simp only [deliver]
      split
      · exact ⟨rfl, rfl, rfl⟩
      · split
        · simp [onopen]
        · simp
    · rw [herr j]
      exact ⟨rfl, rfl, rfl⟩
    · simp only [deliver]
      split
      · exact ⟨rfl, rfl, rfl⟩
      · split
        · rw [onmessage_eq]
          exact ⟨rfl, rfl, rfl⟩
        · exact ⟨rfl, rfl, rfl⟩
  · rw [herr i, deliver_closed JSONparse h i s hs hcb,
      onclose_unintended _ (by simpa using hflag)]
    simp

/-- Witness for C19: the socket of a fresh mount reports an error, then closes. -/
theorem C19_error_event_frame_witness :
    (deliver (fun _ => none) 0 .closed
      (deliver (fun _ => none) 0 .errored (mount false Hook.initial))).timers
      = (mount false Hook.initial).timers
        ++ [min (3000 * 2 ^ (mount false Hook.initial).reconnectAttempts) 48000] :=
  (C19_error_event_frame (fun _ => none) (mount false Hook.initial) 0 Socket.fresh
    rfl rfl rfl).2.2.2

/-- C20: in the mobile hook a close event that reaches the close callback
creates a timer of exactly 3000 ms, whatever came before; for every `n`, after
`n` closures in a row, each followed by the expiry of its timer with the
constructor succeeding, `n + 1` sockets have been constructed and the timers
created are `n` timers of 3000 ms; the open callback changes the connected
indicator and nothing else, the mobile state holding no counter at all. -/
theorem C20_mobile_retries_forever (JSONparse : String → Option JsVal) (n : Nat)
    (h : Mobile.Hook) (i : Nat) (s : Socket) (hs : h.sockets[i]? = some s)
    (hcb : s.onclose = true) :
    (Mobile.deliver JSONparse i .closed h).timers = h.timers ++ [3000] ∧
    (h.timers.length + 1) ∈ (Mobile.deliver JSONparse i .closed h).pending ∧
    (Mobile.closures JSONparse n).sockets.length = n + 1 ∧
    (Mobile.closures JSONparse n).timers = List.replicate n 3000 ∧
    (∀ g : Mobile.Hook, Mobile.onopen g = { g with isConnected := true }) := by
  have hout := mobile_closures_outcome JSONparse n
  refine ⟨?_, ?_, hout.1, hout.2.2.1, fun _ => rfl⟩
  · simp [Mobile.deliver, hs, hcb, Mobile.onclose, Mobile.Hook.updateSocket]
  · simp [Mobile.deliver, hs, hcb, Mobile.onclose, Mobile.Hook.updateSocket]

/-- Witness for C20: the seventh closure of the mobile hook. -/
theorem C20_mobile_retries_forever_witness :
    (Mobile.closures (fun _ => none) 7).sockets.length = 7 + 1 ∧
    (Mobile.closures (fun _ => none) 7).timers = List.replicate 7 3000 :=
  have key := C20_mobile_retries_forever (fun _ => none) 7 (Mobile.mount false Mobile.Hook.initial)
    0 Socket.fresh rfl rfl
  ⟨key.2.2.1, key.2.2.2.1⟩

/-- C22: in the payload `{ command, ...data }` that both hooks serialise and
send, the `command` property is the `command` property of `data` when `data`
has one, and the `command` argument otherwise; on an open socket the web and
the mobile `sendControl` hand the serialised envelope to the socket; for the
command "manual" and the data `{command: "stop"}` the frame is
`{"type":"control","payload":{"command":"stop"}}`.  An object has each key
once, which is the hypothesis on `data`. -/
theorem C22_data_command_wins (command : JsVal) (data : JsObj)
    (hkeys : (data.map Prod.fst).Nodup) :
    controlEnvelope command data
      = .obj [("type", .str "control"),
              ("payload", .obj (JsObj.spread [("command", command)] data))] ∧
    (∀ v : JsVal, data.lookup "command" = some v →
      (JsObj.spread [("command", command)] data).lookup "command" = some v) ∧
    (data.lookup "command" = none →
      (JsObj.spread [("command", command)] data).lookup "command" = some command) ∧
    (∀ (h : Hook) (i : Nat) (s : Socket), h.ws = some i → h.sockets[i]? = some s →
      s.readyState = .OPEN →
      sendControl command data h
        = { h with sockets :=
              h.sockets.set i { s with sent := s.sent ++ [controlFrame command data] } }) ∧
    (∀ (h : Mobile.Hook) (i : Nat) (s : Socket), h.ws = some i → h.sockets[i]? = some s →
      s.readyState = .OPEN →
      Mobile.sendControl command data h
        = { h with sockets :=
              h.sockets.set i { s with sent := s.sent ++ [controlFrame command data] } }) ∧
    controlFrame (.str "manual") [("command", .str "stop")]
      = "\x7b\"type\":\"control\",\"payload\":\x7b\"command\":\"stop\"\x7d\x7d" := by
  refine ⟨rfl, ?_, ?_, ?_, ?_, by decide⟩
  · intro v hv
    exact lookup_spread_present "command" v data _ hkeys hv
  · intro hnone
    rw [lookup_spread_absent "command" data _ hnone]
    rfl
  · intro h i s hws hs hopen
    exact sendControl_open command data h i s hws hs hopen
  · intro h i s hws hs hopen
    exact mobile_sendControl_open command data h i s hws hs hopen

/-- Witness for C22: the command "manual" with the data `{command: "stop"}`. -/
theorem C22_data_command_wins_witness :
    (JsObj.spread [("command", .str "manual")] [("command", .str "stop")]).lookup "command"
      = some (.str "stop") :=
  (C22_data_command_wins (.str "manual") [("command", .str "stop")] (by simp)).2.1
    (.str "stop") rfl

/-- C23: take a mobile hook that was mounted, whose socket opened, and that
was unmounted.  Its cleanup has closed the socket and left the four callbacks
in place; no timer is pending.  The close event that socket then dispatches
reaches the close callback, which creates a timer of 3000 ms.  Whatever socket
events and sends follow, that timer stays pending (only the cleanup, which has
already run, clears timers), and its expiry constructs a new socket. -/
theorem C23_mobile_teardown_does_not_stop (JSONparse : String → Option JsVal)
    (later : List Mobile.Action) :
    (Mobile.tornDown JSONparse).sockets
      = [{ Socket.fresh with readyState := .CLOSING }] ∧
    (Mobile.tornDown JSONparse).pending = [] ∧
    (Mobile.deliver JSONparse 0 .closed (Mobile.tornDown JSONparse)).timers = [3000] ∧
    (Mobile.deliver JSONparse 0 .closed (Mobile.tornDown JSONparse)).pending = [1] ∧
    1 ∈ (Mobile.run JSONparse later
          (Mobile.deliver JSONparse 0 .closed (Mobile.tornDown JSONparse))).pending ∧
    (Mobile.fireTimer false 1 (Mobile.run JSONparse later
        (Mobile.deliver JSONparse 0 .closed (Mobile.tornDown JSONparse)))).sockets.length
      = (Mobile.run JSONparse later
          (Mobile.deliver JSONparse 0 .closed (Mobile.tornDown JSONparse))).sockets.length
        + 1 := by
  have hsock : (Mobile.tornDown JSONparse).sockets
      = [{ Socket.fresh with readyState := .CLOSING }] := by
    simp [Mobile.tornDown, Mobile.cleanup, Mobile.deliver, Mobile.mount,
      Mobile.connectWebSocket, Mobile.Hook.initial, Mobile.Hook.updateSocket, Mobile.onopen,
      Socket.fresh, Socket.close, truthyId]
  have hpend : (Mobile.tornDown JSONparse).pending = [] := by
    simp [Mobile.tornDown, Mobile.cleanup, Mobile.deliver, Mobile.mount,
      Mobile.connectWebSocket, Mobile.Hook.initial, Mobile.Hook.updateSocket, Mobile.onopen,
      Socket.fresh, Socket.close, truthyId]
  have htim : (Mobile.deliver JSONparse 0 .closed (Mobile.tornDown JSONparse)).timers
      = [3000] := by
    simp [Mobile.tornDown, Mobile.cleanup, Mobile.deliver, Mobile.mount,
      Mobile.connectWebSocket, Mobile.Hook.initial, Mobile.Hook.updateSocket, Mobile.onopen,
      Mobile.onclose, Socket.fresh, Socket.close, truthyId]
  have hp1 : (Mobile.deliver JSONparse 0 .closed (Mobile.tornDown JSONparse)).pending
      = [1] := by
    simp [Mobile.tornDown, Mobile.cleanup, Mobile.deliver, Mobile.mount,
      Mobile.connectWebSocket, Mobile.Hook.initial, Mobile.Hook.updateSocket, Mobile.onopen,
      Mobile.onclose, Socket.fresh, Socket.close, truthyId]
  have hstay := mobile_run_pending JSONparse later 1
    (Mobile.deliver JSONparse 0 .closed (Mobile.tornDown JSONparse))
    (by rw [hp1]; exact List.mem_singleton.mpr rfl)
  exact ⟨hsock, hpend, htim, hp1, hstay, (mobile_fireTimer_constructs _ 1 hstay).1⟩

/-- C21 as stated fails: mount, let the socket open, unmount.  The state is
reached with the open event dispatched by a connecting socket and no close
event at all; the connected indicator is true, `ws.current` references the
socket, and the four callbacks of that socket are empty. -/
theorem C21_connected_without_callbacks :
    ReachableRegular (fun _ => none) tornDownConnected ∧
    tornDownConnected.isConnected = true ∧
    tornDownConnected.ws = some 0 ∧
    tornDownConnected.sockets
      = [{ readyState := .CLOSING, onopen := false, onmessage := false, onerror := false,
           onclose := false, sent := [] }] := by
  refine ⟨?_, ?_, ?_, ?_⟩
  · exact ReachableRegular.after .unmount _
      (ReachableRegular.after (.event 0 .opened) _ (ReachableRegular.mounted false) rfl) rfl
  all_goals
    simp [tornDownConnected, step, mount, connectWebSocket, deliver, onopen, cleanup,
      Hook.initial, Hook.readyState?, maxReconnectAttempts, Hook.updateSocket,
      Hook.discardSocket, Socket.fresh, Socket.detach, Socket.close,
      Hook.clearReconnectTimeout, truthyId]

/-- C21 amended: in every state reached from a mount while open events come
only from connecting sockets and each socket dispatches at most one close
event, the connected indicator being true implies that the counter is 0, that
no timer is pending and that `ws.current` references a socket, which has its
four callbacks as long as the intentional-close flag is false; the flag
becomes true only by the unmount, and once it is true no socket has a callback
and no timer is pending; a pending timer and a connecting or open referenced
socket never coexist. -/
theorem C21_connected_implies_settled (JSONparse : String → Option JsVal) (h : Hook)
    (hr : ReachableRegular JSONparse h) :
    (h.isConnected = true →
      h.reconnectAttempts = 0 ∧ h.pending = [] ∧
      ∃ (i : Nat) (s : Socket), h.ws = some i ∧ h.sockets[i]? = some s ∧
        (h.isIntentionallyClosed = false →
          s.onopen = true ∧ s.onmessage = true ∧ s.onerror = true ∧ s.onclose = true)) ∧
    (h.isIntentionallyClosed = true →
      h.pending = [] ∧ ∀ s ∈ h.sockets, s.attached = false) ∧
    (∀ (a : Action) (g : Hook), (step JSONparse a g).isIntentionallyClosed = true →
      g.isIntentionallyClosed = true ∨ a = .unmount) ∧
    (h.pending ≠ [] →
      ¬ (h.readyState? = some .CONNECTING ∨ h.readyState? = some .OPEN)) := by
  obtain ⟨_, _, hn, hset, ht⟩ := invariants_of_regular JSONparse h hr
  exact ⟨hset, ht, fun a g => step_flag_true JSONparse a g, hn⟩

/-- Witness for C21 amended: the socket of a fresh mount has opened. -/
theorem C21_connected_implies_settled_witness :
    (step (fun _ => none) (.event 0 .opened) (mount false Hook.initial)).reconnectAttempts = 0 ∧
    (step (fun _ => none) (.event 0 .opened) (mount false Hook.initial)).pending = [] :=
  have key := (C21_connected_implies_settled (fun _ => none)
    (step (fun _ => none) (.event 0 .opened) (mount false Hook.initial))
    (ReachableRegular.after (.event 0 .opened) _ (ReachableRegular.mounted false) rfl)).1 rfl
  ⟨key.1, key.2.1⟩

end MobilIOT
